import Mathlib

/-!
Verification of the data-synchronization subsystem of the geoguessr-stats
repository, as a shallow embedding in Lean 4.

Embedded sources:
- src/backend/src/services/syncService.ts (SyncService.syncAllData,
  SyncService.saveGameData, SyncService.saveRounds)
- the GeoGuessrApiClient (getFeed, getGameDetails, parseGamePayload,
  getAllGameTokens) with the pagination/dedup/termination loop
- the mongoose Round schema setters that apply on persistence
  (src/backend/src/models/Round.ts)

Modelling conventions:
- JavaScript numbers on data paths are modelled as rationals; integer
  identifiers and counters as naturals. parseInt results are carried as
  already-parsed integers.
- Exceptions are modelled as Except String; the message carried is the
  source template with the interpolated error text.
- The document store is a pair of lists (games, rounds) plus an id counter;
  Game.findOne returns the first list element matching the natural key,
  deleteMany/insertMany are filter/append. Schema range validators are not
  modelled (the domain keeps rounds within bounds; theorems that depend on
  this carry the round-count bound as a hypothesis).
- Network collaborators are parameters: a transport gives the outcome of
  the n-th HTTP attempt, the feed gives the outcome of fetching the page
  at a cursor, and the sync environment gives the outcomes of the token
  listing, detail fetches, store-write failures and the user-record update.
-/

namespace GeoStats

/-! ## Payload data model (types/geoguessr.ts) -/

structure LatLng where
  lat : ℚ
  lng : ℚ
deriving DecidableEq

structure MapBounds where
  min : LatLng
  max : LatLng
deriving DecidableEq

/-- One element of gameDetails.rounds: the actual location of a round. -/
structure RoundData where
  lat : ℚ
  lng : ℚ
  streakLocationCode : String
  panoId : String
  heading : ℚ
  pitch : ℚ
  zoom : ℚ
deriving DecidableEq

/-- One element of gameDetails.player.guesses. streakLocationCode is
string-or-null in the source. -/
structure GuessData where
  lat : ℚ
  lng : ℚ
  roundScoreInPoints : ℚ
  distanceInMeters : ℚ
  streakLocationCode : Option String
  time : ℚ
deriving DecidableEq

/-- gameDetails.player. totalScoreAmount carries the result of
parseInt(player.totalScore.amount). -/
structure PlayerData where
  totalScoreAmount : ℤ
  guesses : List GuessData
deriving DecidableEq

/-- The entity-detail payload (GeoGuessrGameDetails). -/
structure GameDetails where
  token : String
  map : String
  mapName : String
  mode : String
  state : String
  roundCount : ℕ
  timeLimit : ℚ
  forbidMoving : Bool
  forbidZooming : Bool
  forbidRotating : Bool
  panoramaProvider : ℚ
  bounds : MapBounds
  rounds : List RoundData
  player : PlayerData
deriving DecidableEq

/-! ## Persisted records (models/Game.ts, models/Round.ts) -/

structure GameRecord where
  id : ℕ
  user_id : ℕ
  game_token : String
  map_id : String
  map_name : String
  game_mode : String
  total_score : ℤ
  played_at : ℕ
  game_state : String
  round_count : ℕ
  time_limit : ℚ
  forbid_moving : Bool
  forbid_zooming : Bool
  forbid_rotating : Bool
  panorama_provider : ℚ
  map_bounds : MapBounds
  details_fetched : Bool
deriving DecidableEq

structure RoundRecord where
  game_id : ℕ
  user_id : ℕ
  round_number : ℕ
  actual_lat : ℚ
  actual_lng : ℚ
  actual_country_code : String
  guess_lat : ℚ
  guess_lng : ℚ
  score : ℚ
  distance_meters : ℚ
  distance_km : ℚ
  time_taken : ℚ
  is_correct_country : Bool
  country_guess : Option String
  country_actual : String
  pano_id : String
  heading : ℚ
  pitch : ℚ
  zoom : ℚ
deriving DecidableEq

/-- The document store: games and rounds collections plus the id counter
used for newly inserted game documents. -/
structure Store where
  games : List GameRecord
  rounds : List RoundRecord
  nextId : ℕ
deriving DecidableEq

/-- Game.findOne on the natural key game_token: first match in the
collection. -/
def findGame (st : Store) (tok : String) : Option GameRecord :=
  st.games.find? (fun g => g.game_token == tok)

/-! ## saveRounds (syncService.ts lines 187-242) -/

/-- The round document built at index i of the saveRounds loop.
is_correct_country is the source's strict equality
roundData.streakLocationCode === guessData.streakLocationCode, where the
guess code is string-or-null; no case normalization is applied.
country_guess is guessData.streakLocationCode || undefined, so the empty
string is also mapped to undefined. -/
def buildRound (u gid i : ℕ) (r : RoundData) (g : GuessData) : RoundRecord where
  game_id := gid
  user_id := u
  round_number := i + 1
  actual_lat := r.lat
  actual_lng := r.lng
  actual_country_code := r.streakLocationCode
  guess_lat := g.lat
  guess_lng := g.lng
  score := g.roundScoreInPoints
  distance_meters := g.distanceInMeters
  distance_km := g.distanceInMeters / 1000
  time_taken := g.time
  is_correct_country := some r.streakLocationCode == g.streakLocationCode
  country_guess :=
    match g.streakLocationCode with
    | some c => if c = "" then none else some c
    | none => none
  country_actual := r.streakLocationCode
  pano_id := r.panoId
  heading := r.heading
  pitch := r.pitch
  zoom := r.zoom

/-- The for loop of saveRounds: iterate over indices of gameDetails.rounds,
pair index i with player.guesses at i, and skip the index (with a warning)
when the guess at that index is missing. -/
def buildRounds (u gid : ℕ) : ℕ → List RoundData → List GuessData → List RoundRecord
  | _, [], _ => []
  | i, _ :: rs, [] => buildRounds u gid (i + 1) rs []
  | i, r :: rs, g :: gs => buildRound u gid i r g :: buildRounds u gid (i + 1) rs gs

/-- Character-wise uppercasing, the effect of a mongoose uppercase
setter. -/
def upperString (s : String) : String := ⟨s.data.map Char.toUpper⟩

/-- Strip leading and trailing whitespace, the effect of a mongoose trim
setter. -/
def trimString (s : String) : String :=
  ⟨((s.data.dropWhile Char.isWhitespace).reverse.dropWhile Char.isWhitespace).reverse⟩

/-- Mongoose Round schema setters applied when a round document is saved:
actual_country_code is trimmed and uppercased; country_guess,
country_actual and pano_id are trimmed. -/
def applyRoundSchema (r : RoundRecord) : RoundRecord :=
  { r with
    actual_country_code := upperString (trimString r.actual_country_code)
    country_guess := r.country_guess.map trimString
    country_actual := trimString r.country_actual
    pano_id := trimString r.pano_id }

/-- saveRounds: Round.deleteMany on game_id, then Round.insertMany of the
built list when it is non-empty. -/
def saveRoundsStore (u gid : ℕ) (d : GameDetails) (st : Store) : Store :=
  let remaining := st.rounds.filter (fun r => ¬ (r.game_id == gid))
  let newRounds := (buildRounds u gid 0 d.rounds d.player.guesses).map applyRoundSchema
  if newRounds.isEmpty then ⟨st.games, remaining, st.nextId⟩
  else ⟨st.games, remaining ++ newRounds, st.nextId⟩

/-! ## saveGameData (syncService.ts lines 114-182) -/

/-- The new Game document created when no game with the token exists. -/
def mkGameRecord (gid u now : ℕ) (d : GameDetails) : GameRecord where
  id := gid
  user_id := u
  game_token := d.token
  map_id := d.map
  map_name := d.mapName
  game_mode := d.mode
  total_score := d.player.totalScoreAmount
  played_at := now
  game_state := d.state
  round_count := d.roundCount
  time_limit := d.timeLimit
  forbid_moving := d.forbidMoving
  forbid_zooming := d.forbidZooming
  forbid_rotating := d.forbidRotating
  panorama_provider := d.panoramaProvider
  map_bounds := d.bounds
  details_fetched := true

/-- The update branch of saveGameData: overwrite the mutable detail fields
of the existing document and set details_fetched. -/
def updGameRecord (g : GameRecord) (d : GameDetails) : GameRecord :=
  { g with
    total_score := d.player.totalScoreAmount
    game_state := d.state
    round_count := d.roundCount
    time_limit := d.timeLimit
    forbid_moving := d.forbidMoving
    forbid_zooming := d.forbidZooming
    forbid_rotating := d.forbidRotating
    panorama_provider := d.panoramaProvider
    map_bounds := d.bounds
    details_fetched := true }

/-- game.save() on the document returned by Game.findOne: replace the first
list element matching the token. -/
def updateFirstGame (tok : String) (d : GameDetails) : List GameRecord → List GameRecord
  | [] => []
  | g :: gs =>
    if g.game_token == tok then updGameRecord g d :: gs
    else g :: updateFirstGame tok d gs

/-- saveGameData: look up by token; insert a new document (isNew = true) or
update the existing one in place (isNew = false); then saveRounds. Returns
(isNew, the game document id, the store). -/
def saveGameData (u now : ℕ) (st : Store) (d : GameDetails) : Bool × ℕ × Store :=
  match findGame st d.token with
  | none =>
    let gid := st.nextId
    let st1 : Store := ⟨st.games ++ [mkGameRecord gid u now d], st.rounds, st.nextId + 1⟩
    (true, gid, saveRoundsStore u gid d st1)
  | some g0 =>
    let st1 : Store := ⟨updateFirstGame d.token d st.games, st.rounds, st.nextId⟩
    (false, g0.id, saveRoundsStore u g0.id d st1)

/-! ## syncAllData (syncService.ts lines 23-109) -/

structure SyncResult where
  success : Bool
  gamesProcessed : ℕ
  newGames : ℕ
  updatedGames : ℕ
  errors : List String
  duration : ℕ
deriving DecidableEq

def initResult : SyncResult := ⟨false, 0, 0, 0, [], 0⟩

/-- The run environment: outcomes of every collaborator call the sync makes.
tokens is the outcome of getAllGameTokens; details tok that of
getGameDetails(tok); saveFail tok injects a store exception raised at the
start of saveGameData for tok (e.g. Game.findOne rejecting);
userUpdateFail injects a failure of the final User.findByIdAndUpdate;
now and elapsed stand for the Date.now() readings. -/
structure SyncEnv where
  tokens : Except String (List String)
  details : String → Except String GameDetails
  saveFail : String → Option String
  userUpdateFail : Option String
  now : ℕ
  elapsed : ℕ

/-- The error message pushed by the per-game catch block. -/
def procErrMsg (tok e : String) : String :=
  "Failed to process game " ++ tok ++ ": " ++ e

/-- The try body of one loop iteration after the skip check: fetch details,
save, and bump the counters; any failure is caught and recorded. -/
def fetchAndSave (env : SyncEnv) (u : ℕ) (acc : SyncResult × Store) (tok : String) :
    SyncResult × Store :=
  match env.details tok with
  | .error e => ({ acc.1 with errors := acc.1.errors ++ [procErrMsg tok e] }, acc.2)
  | .ok d =>
    match env.saveFail tok with
    | some e => ({ acc.1 with errors := acc.1.errors ++ [procErrMsg tok e] }, acc.2)
    | none =>
      let r := saveGameData u env.now acc.2 d
      if r.1 then
        ({ acc.1 with
            newGames := acc.1.newGames + 1
            gamesProcessed := acc.1.gamesProcessed + 1 }, r.2.2)
      else
        ({ acc.1 with
            updatedGames := acc.1.updatedGames + 1
            gamesProcessed := acc.1.gamesProcessed + 1 }, r.2.2)

/-- One iteration of the phase-2 loop: skip when a game with the token
exists and has details_fetched; otherwise fetch and save. -/
def processToken (env : SyncEnv) (u : ℕ) (acc : SyncResult × Store) (tok : String) :
    SyncResult × Store :=
  match findGame acc.2 tok with
  | some g => if g.details_fetched then acc else fetchAndSave env u acc tok
  | none => fetchAndSave env u acc tok

/-- syncAllData: list tokens; on an empty list return success immediately;
otherwise process every token, then update the user record and finalize
success = (errors.length == 0). A run-level exception (token listing or
user update) is caught, its message appended, and the result returned. -/
def syncAllData (env : SyncEnv) (u : ℕ) (st : Store) : SyncResult × Store :=
  match env.tokens with
  | .error e =>
    ({ initResult with errors := ["Sync failed: " ++ e], duration := env.elapsed }, st)
  | .ok toks =>
    if toks.isEmpty then
      ({ initResult with success := true, duration := env.elapsed }, st)
    else
      let out := toks.foldl (processToken env u) (initResult, st)
      match env.userUpdateFail with
      | some e =>
        ({ out.1 with
            errors := out.1.errors ++ ["Sync failed: " ++ e]
            duration := env.elapsed }, out.2)
      | none =>
        ({ out.1 with success := out.1.errors.isEmpty, duration := env.elapsed }, out.2)

/-! ## Remote client (GeoGuessrApiClient: getFeed, getGameDetails) -/

/-- One feed entry. etype is entry.type (1 marks game completions);
payloads is the outcome of parseGamePayload(entry.payload): a parse error,
or the list of the payload objects' optional gameToken fields. -/
structure FeedEntry where
  etype : ℕ
  payloads : Except String (List (Option String))

structure FeedPage where
  entries : List FeedEntry
  paginationToken : Option String

/-- The outcome of one underlying axios request attempt: either a payload
or a failure carrying the HTTP status (when the failure is an HTTP
response) and its stringified text. -/
structure HttpErr where
  status : Option ℕ
  msg : String
deriving DecidableEq

/-- getFeed: one axios call for the cursor (attempt index 0 of the
transport); any failure is wrapped and rethrown immediately. -/
def getFeed (transport : Option String → ℕ → Except HttpErr FeedPage)
    (cursor : Option String) : Except String FeedPage :=
  match transport cursor 0 with
  | .ok page => .ok page
  | .error e => .error ("Failed to fetch GeoGuessr feed: " ++ e.msg)

/-- getGameDetails: one axios call for the token (attempt index 0); any
failure is wrapped and rethrown immediately. -/
def getGameDetails (transport : String → ℕ → Except HttpErr GameDetails)
    (tok : String) : Except String GameDetails :=
  match transport tok 0 with
  | .ok d => .ok d
  | .error e => .error ("Failed to fetch game details for " ++ tok ++ ": " ++ e.msg)

/-- Modelled from the spec (4.1): the Remote Client the spec describes but
the source does not contain — bounded retry (1 initial attempt plus up to
2 retries) surfacing TransientFetchError, and an immediate AuthError on a
401/403 status. Used only to compare the spec s client against the
source s. -/
def retrySpec {α : Type} (t : ℕ → Except HttpErr α) : ℕ → ℕ → Except String α
  | _, 0 => .error "TransientFetchError"
  | i, n + 1 =>
    match t i with
    | .ok a => .ok a
    | .error e =>
      if e.status = some 401 ∨ e.status = some 403 then .error "AuthError"
      else if n = 0 then .error "TransientFetchError"
      else retrySpec t (i + 1) n

/-- Modelled from the spec (4.1): listPage with the retry policy of the
spec, three bounded attempts in total. -/
def getFeedSpec (transport : Option String → ℕ → Except HttpErr FeedPage)
    (cursor : Option String) : Except String FeedPage :=
  retrySpec (transport cursor) 0 3

/-! ## Feed pagination (GeoGuessrApiClient.getAllGameTokens) -/

/-- The in-loop accumulator: the output list, the seen set (kept as the
insertion-ordered list of its elements) and newTokensThisPage. -/
structure TokenAcc where
  gameTokens : List String
  seenTokens : List String
  newCount : ℕ
deriving DecidableEq

/-- The innermost check: a payload contributes its gameToken when the
field is truthy (present and non-empty) and not yet in the seen set. -/
def addPayloadToken (acc : TokenAcc) : Option String → TokenAcc
  | none => acc
  | some tok =>
    if tok ≠ "" ∧ tok ∉ acc.seenTokens then
      ⟨acc.gameTokens ++ [tok], acc.seenTokens ++ [tok], acc.newCount + 1⟩
    else acc

/-- One feed entry: only type-1 entries are scanned; a payload parse
failure is logged and skipped. -/
def addEntry (acc : TokenAcc) (e : FeedEntry) : TokenAcc :=
  if e.etype = 1 then
    match e.payloads with
    | .error _ => acc
    | .ok ps => ps.foldl addPayloadToken acc
  else acc

/-- Scan one page's entries, with newTokensThisPage restarted at 0. -/
def extractPage (tokens seen : List String) (page : FeedPage) : TokenAcc :=
  page.entries.foldl addEntry ⟨tokens, seen, 0⟩

/-- The mutable state of the while loop in getAllGameTokens. -/
structure LoopState where
  gameTokens : List String
  seenTokens : List String
  cursor : Option String
  pageCount : ℕ
  emptyPages : ℕ
deriving DecidableEq

def initLoopState : LoopState := ⟨[], [], none, 0, 0⟩

/-- pageCount < maxPages, where maxPages defaults to positive infinity. -/
def ltMax (n : ℕ) : Option ℕ → Bool
  | none => true
  | some m => n < m

inductive ExitReason where
  | endOfFeed
  | maxPagesReached
  | emptyStreak
deriving DecidableEq

/-- The outcome of one loop iteration: continue with the next state, or
break out with the final state and the reason. -/
inductive StepOut where
  | more (s : LoopState)
  | stop (s : LoopState) (r : ExitReason)
deriving DecidableEq

/-- The tail of a successful iteration: break when the page carries no
pagination token, otherwise advance the cursor. -/
def afterCursor (s : LoopState) (page : FeedPage) : StepOut :=
  match page.paginationToken with
  | none => .stop s .endOfFeed
  | some t => .more { s with cursor := some t }

/-- One iteration of the while loop: the guard pageCount < maxPages; a
failed page fetch is caught, counts the page, and continues; a fetched
page is scanned, the consecutive-empty-page counter is bumped or reset,
the loop breaks at a streak of 3, and otherwise the cursor is checked. -/
def stepPage (feed : Option String → Except String FeedPage) (maxPages : Option ℕ)
    (s : LoopState) : StepOut :=
  if ltMax s.pageCount maxPages then
    match feed s.cursor with
    | .error _ => .more { s with pageCount := s.pageCount + 1 }
    | .ok page =>
      let acc := extractPage s.gameTokens s.seenTokens page
      let s1 : LoopState :=
        { s with
          gameTokens := acc.gameTokens
          seenTokens := acc.seenTokens
          pageCount := s.pageCount + 1 }
      if acc.newCount = 0 then
        let s2 := { s1 with emptyPages := s1.emptyPages + 1 }
        if 3 ≤ s2.emptyPages then .stop s2 .emptyStreak
        else afterCursor s2 page
      else afterCursor { s1 with emptyPages := 0 } page
  else .stop s .maxPagesReached

/-- Run the loop under a fuel bound; none means the fuel was exhausted
before the loop broke on its own. -/
def runLoop (feed : Option String → Except String FeedPage) (maxPages : Option ℕ) :
    ℕ → LoopState → Option (LoopState × ExitReason)
  | 0, _ => none
  | fuel + 1, s =>
    match stepPage feed maxPages s with
    | .stop sF r => some (sF, r)
    | .more s1 => runLoop feed maxPages fuel s1

/-- getAllGameTokens: run the pagination loop from the initial state and
return the collected token list. -/
def getAllGameTokens (feed : Option String → Except String FeedPage)
    (maxPages : Option ℕ) (fuel : ℕ) : Option (List String) :=
  (runLoop feed maxPages fuel initLoopState).map (fun p => p.1.gameTokens)

/-! ## Concrete fixtures for witnesses and counterexamples -/

/-- The round of the repository's own sync test: actual country "se". -/
def seRound : RoundData := ⟨1, 1, "se", "p", 0, 0, 0⟩

/-- The guess of the repository's own sync test: guessed country "SE",
score 5000, distance 0 meters. -/
def seGuess : GuessData := ⟨1, 1, 5000, 0, some "SE", 10⟩

/-- The detail payload of the repository's own sync test (mockGameDetails
in syncService.test.ts). -/
def seDetails : GameDetails where
  token := "game1"
  map := "world"
  mapName := "World"
  mode := "standard"
  state := "finished"
  roundCount := 1
  timeLimit := 0
  forbidMoving := false
  forbidZooming := false
  forbidRotating := false
  panoramaProvider := 1
  bounds := ⟨⟨0, 0⟩, ⟨1, 1⟩⟩
  rounds := [seRound]
  player := ⟨5000, [seGuess]⟩

def emptyStore : Store := ⟨[], [], 0⟩

/-! ## Claim theorems -/

/-- Claim C1: the claim states that normalization derives distance_km as
distance_meters / 1000 and the correctness flag as case-normalized country
equality, so a round with actual country "se" and guessed country "SE"
persists with is_correct_country = true. Evaluating the embedded code on
exactly that payload (the repository's own test fixture): distance_km = 0
and score = 5000 come out as claimed, but the persisted child has
is_correct_country = false, because saveRounds compares the two codes with
strict equality and no case normalization — contradicting the
repository's own test, which expects true. -/
theorem saveGameData_se_round_flag_not_normalized :
    ((saveGameData 1 0 emptyStore seDetails).2.2.rounds.map
        RoundRecord.is_correct_country = [false])
      ∧ ((saveGameData 1 0 emptyStore seDetails).2.2.rounds.map
          RoundRecord.distance_km = [0])
      ∧ ((saveGameData 1 0 emptyStore seDetails).2.2.rounds.map
          RoundRecord.score = [5000])
      ∧ ((saveGameData 1 0 emptyStore seDetails).2.2.rounds.map
          RoundRecord.actual_country_code = ["SE"])
      ∧ ((saveGameData 1 0 emptyStore seDetails).2.2.games.map
          GameRecord.details_fetched = [true]) := by
  have h1 : upperString (trimString "se") = "SE" := by decide
  refine ⟨?_, ?_, ?_, ?_, ?_⟩ <;>
    simp [saveGameData, findGame, emptyStore, saveRoundsStore, buildRounds, h1,
      buildRound, applyRoundSchema, seDetails, seRound, seGuess, mkGameRecord]

/-! ## Counter and success-field invariants of the processing loop -/

lemma fetchAndSave_counts (env : SyncEnv) (u : ℕ) (acc : SyncResult × Store) (tok : String)
    (h : acc.1.gamesProcessed = acc.1.newGames + acc.1.updatedGames) :
    (fetchAndSave env u acc tok).1.gamesProcessed =
      (fetchAndSave env u acc tok).1.newGames + (fetchAndSave env u acc tok).1.updatedGames := by
  unfold fetchAndSave
  cases hd : env.details tok with
  | error e => simpa using h
  | ok d =>
    cases hs : env.saveFail tok with
    | some e => simpa using h
    | none =>
      by_cases hn : (saveGameData u env.now acc.2 d).1 <;> simp [hn, h] <;> omega

lemma processToken_counts (env : SyncEnv) (u : ℕ) (acc : SyncResult × Store) (tok : String)
    (h : acc.1.gamesProcessed = acc.1.newGames + acc.1.updatedGames) :
    (processToken env u acc tok).1.gamesProcessed =
      (processToken env u acc tok).1.newGames + (processToken env u acc tok).1.updatedGames := by
  unfold processToken
  cases hf : findGame acc.2 tok with
  | none => exact fetchAndSave_counts env u acc tok h
  | some g =>
    by_cases hg : g.details_fetched
    · simpa [hg] using h
    · simpa [hg] using fetchAndSave_counts env u acc tok h

lemma foldl_counts (env : SyncEnv) (u : ℕ) (toks : List String) (acc : SyncResult × Store)
    (h : acc.1.gamesProcessed = acc.1.newGames + acc.1.updatedGames) :
    (toks.foldl (processToken env u) acc).1.gamesProcessed =
      (toks.foldl (processToken env u) acc).1.newGames +
        (toks.foldl (processToken env u) acc).1.updatedGames := by
  induction toks generalizing acc with
  | nil => simpa using h
  | cons t ts ih => exact ih _ (processToken_counts env u acc t h)

lemma fetchAndSave_success (env : SyncEnv) (u : ℕ) (acc : SyncResult × Store) (tok : String) :
    (fetchAndSave env u acc tok).1.success = acc.1.success := by
  unfold fetchAndSave
  cases env.details tok with
  | error e => simp
  | ok d =>
    cases env.saveFail tok with
    | some e => simp
    | none => by_cases hn : (saveGameData u env.now acc.2 d).1 <;> simp [hn]

lemma processToken_success (env : SyncEnv) (u : ℕ) (acc : SyncResult × Store) (tok : String) :
    (processToken env u acc tok).1.success = acc.1.success := by
  unfold processToken
  cases findGame acc.2 tok with
  | none => exact fetchAndSave_success env u acc tok
  | some g =>
    by_cases hg : g.details_fetched
    · simp [hg]
    · simpa [hg] using fetchAndSave_success env u acc tok

lemma foldl_success (env : SyncEnv) (u : ℕ) (toks : List String) (acc : SyncResult × Store) :
    (toks.foldl (processToken env u) acc).1.success = acc.1.success := by
  induction toks generalizing acc with
  | nil => rfl
  | cons t ts ih => rw [List.foldl_cons, ih, processToken_success]

/-- Claim C9: every SyncResult returned by syncAllData satisfies
gamesProcessed = newGames + updatedGames; a game bumps the processed
count exactly when it bumps exactly one of the created or updated counts,
skipped and failed tokens bump none. -/
theorem syncAllData_processed_eq_new_add_updated (env : SyncEnv) (u : ℕ) (st : Store) :
    (syncAllData env u st).1.gamesProcessed =
      (syncAllData env u st).1.newGames + (syncAllData env u st).1.updatedGames := by
  unfold syncAllData
  cases ht : env.tokens with
  | error e => simp [initResult]
  | ok toks =>
    by_cases he : toks.isEmpty
    · simp [he, initResult]
    · have h := foldl_counts env u toks (initResult, st) (by simp [initResult])
      cases hu : env.userUpdateFail <;> simpa [he, hu] using h

/-- Claim C10: syncAllData is a total function into SyncResult; success
holds exactly when the error list is empty, the duration field is always
set from the run clock, a token-listing failure is captured as the single
error entry, and a user-record update failure is appended to the errors. -/
theorem syncAllData_never_throws (env : SyncEnv) (u : ℕ) (st : Store) :
    ((syncAllData env u st).1.success = true ↔ (syncAllData env u st).1.errors = [])
      ∧ (syncAllData env u st).1.duration = env.elapsed
      ∧ (∀ e, env.tokens = .error e →
          (syncAllData env u st).1.errors = ["Sync failed: " ++ e])
      ∧ (∀ e toks, env.tokens = .ok toks → env.userUpdateFail = some e → ¬ toks.isEmpty →
          ("Sync failed: " ++ e) ∈ (syncAllData env u st).1.errors) := by
  unfold syncAllData
  cases ht : env.tokens with
  | error e => simp [initResult]
  | ok toks =>
    by_cases he : toks.isEmpty
    · simp [he, initResult, List.isEmpty_iff.mp he]
    · have hs : (List.foldl (processToken env u) (initResult, st) toks).1.success = false := by
        simpa [initResult] using foldl_success env u toks (initResult, st)
      cases hu : env.userUpdateFail with
      | some e =>
        simp only [initResult] at hs
        simp [he, hs, initResult, List.isEmpty_iff]
      | none => simp [he, List.isEmpty_iff]

/-- Closed witness for C10: a concrete environment whose token listing
throws, and one whose user update throws after one successful game. -/
theorem syncAllData_never_throws_witness :
    ((syncAllData ⟨.error "boom", fun _ => .ok seDetails, fun _ => none, none, 0, 5⟩ 1
        emptyStore).1.errors = ["Sync failed: boom"])
      ∧ ("Sync failed: db down" ∈
          (syncAllData ⟨.ok ["game1"], fun _ => .ok seDetails, fun _ => none,
              some "db down", 0, 5⟩ 1 emptyStore).1.errors) := by
  constructor
  · exact (syncAllData_never_throws
      ⟨.error "boom", fun _ => .ok seDetails, fun _ => none, none, 0, 5⟩ 1
        emptyStore).2.2.1 "boom" rfl
  · exact (syncAllData_never_throws
      ⟨.ok ["game1"], fun _ => .ok seDetails, fun _ => none, some "db down", 0, 5⟩ 1
        emptyStore).2.2.2 "db down" ["game1"] rfl rfl (by decide)

/-! ## Child replacement on re-sync -/

/-- The children of one parent in the store. -/
def roundsOf (st : Store) (gid : ℕ) : List RoundRecord :=
  st.rounds.filter (fun r => r.game_id == gid)

lemma applyRoundSchema_game_id (r : RoundRecord) :
    (applyRoundSchema r).game_id = r.game_id := rfl

lemma buildRounds_game_id (u gid : ℕ) (rs : List RoundData) :
    ∀ (i : ℕ) (gs : List GuessData) (r : RoundRecord),
      r ∈ buildRounds u gid i rs gs → r.game_id = gid := by
  induction rs with
  | nil => intro i gs r hr; simp [buildRounds] at hr
  | cons a as ih =>
    intro i gs r hr
    cases gs with
    | nil => exact ih (i + 1) [] r (by simpa [buildRounds] using hr)
    | cons g gs2 =>
      rcases List.mem_cons.mp (by simpa [buildRounds] using hr) with h | h
      · rw [h]; rfl
      · exact ih (i + 1) gs2 r h

lemma saveRoundsStore_rounds (u gid : ℕ) (d : GameDetails) (st : Store) :
    (saveRoundsStore u gid d st).rounds =
      st.rounds.filter (fun r => ¬ (r.game_id == gid)) ++
        (buildRounds u gid 0 d.rounds d.player.guesses).map applyRoundSchema := by
  unfold saveRoundsStore
  by_cases h : ((buildRounds u gid 0 d.rounds d.player.guesses).map applyRoundSchema).isEmpty
  · simp [h, List.isEmpty_iff.mp h]
  · simp [h]

lemma saveRoundsStore_games (u gid : ℕ) (d : GameDetails) (st : Store) :
    (saveRoundsStore u gid d st).games = st.games := by
  by_cases h : ((buildRounds u gid 0 d.rounds d.player.guesses).map applyRoundSchema).isEmpty <;>
    simp [saveRoundsStore, h]

lemma saveRoundsStore_nextId (u gid : ℕ) (d : GameDetails) (st : Store) :
    (saveRoundsStore u gid d st).nextId = st.nextId := by
  by_cases h : ((buildRounds u gid 0 d.rounds d.player.guesses).map applyRoundSchema).isEmpty <;>
    simp [saveRoundsStore, h]

lemma roundsOf_saveRoundsStore_self (u gid : ℕ) (d : GameDetails) (st : Store) :
    roundsOf (saveRoundsStore u gid d st) gid =
      (buildRounds u gid 0 d.rounds d.player.guesses).map applyRoundSchema := by
  rw [roundsOf, saveRoundsStore_rounds, List.filter_append]
  have h1 : (st.rounds.filter (fun r => ¬ (r.game_id == gid))).filter
      (fun r => r.game_id == gid) = [] := by
    rw [List.filter_eq_nil_iff]
    intro a ha
    simpa using (List.mem_filter.mp ha).2
  have h2 : ((buildRounds u gid 0 d.rounds d.player.guesses).map applyRoundSchema).filter
        (fun r => r.game_id == gid) =
      (buildRounds u gid 0 d.rounds d.player.guesses).map applyRoundSchema := by
    rw [List.filter_eq_self]
    intro a ha
    rcases List.mem_map.mp ha with ⟨b, hb, hab⟩
    have := buildRounds_game_id u gid d.rounds 0 d.player.guesses b hb
    simp [← hab, applyRoundSchema_game_id, this]
  rw [h1, h2, List.nil_append]

lemma roundsOf_saveRoundsStore_other (u gid : ℕ) (d : GameDetails) (st : Store)
    (gid2 : ℕ) (h : gid2 ≠ gid) :
    roundsOf (saveRoundsStore u gid d st) gid2 = roundsOf st gid2 := by
  rw [roundsOf, saveRoundsStore_rounds, List.filter_append]
  have h2 : ((buildRounds u gid 0 d.rounds d.player.guesses).map applyRoundSchema).filter
      (fun r => r.game_id == gid2) = [] := by
    rw [List.filter_eq_nil_iff]
    intro a ha
    rcases List.mem_map.mp ha with ⟨b, hb, hab⟩
    have := buildRounds_game_id u gid d.rounds 0 d.player.guesses b hb
    simp [← hab, applyRoundSchema_game_id, this]
    omega
  have h1 : (st.rounds.filter (fun r => ¬ (r.game_id == gid))).filter
      (fun r => r.game_id == gid2) = st.rounds.filter (fun r => r.game_id == gid2) := by
    rw [List.filter_filter]
    apply List.filter_congr
    intro a _
    by_cases hg : a.game_id = gid2
    · simp [hg, h]
    · simp [hg]
  rw [h1, h2, List.append_nil, roundsOf]

/-- 5-round and 3-round payloads for the same parent, used to model an
upstream correction of the round count. -/
def usRound : RoundData := ⟨0, 0, "us", "p", 0, 0, 0⟩

def usGuess : GuessData := ⟨0, 0, 5000, 0, some "us", 1⟩

def d5Details : GameDetails :=
  { seDetails with
    token := "game5"
    roundCount := 5
    rounds := List.replicate 5 usRound
    player := ⟨25000, List.replicate 5 usGuess⟩ }

def d3Details : GameDetails :=
  { d5Details with
    roundCount := 3
    rounds := List.replicate 3 usRound
    player := ⟨15000, List.replicate 3 usGuess⟩ }

/-- Claim C3: on every save of a parent the persisted child set afterwards
is exactly the set derived from the freshest detail payload — existing
children of the parent are deleted before the new set is inserted and
children of other parents are untouched; concretely, syncing a parent with
5 rounds and re-syncing it with 3 leaves exactly 3 children. The round
count bound of the domain (at most 5) is carried as a hypothesis because
the store model does not re-check the schema range validators. -/
theorem saveGameData_replaces_children :
    (∀ (st : Store) (u now : ℕ) (d : GameDetails), d.rounds.length ≤ 5 →
        (roundsOf (saveGameData u now st d).2.2 (saveGameData u now st d).2.1 =
            (buildRounds u (saveGameData u now st d).2.1 0 d.rounds d.player.guesses).map
              applyRoundSchema)
          ∧ ∀ gid2, gid2 ≠ (saveGameData u now st d).2.1 →
              roundsOf (saveGameData u now st d).2.2 gid2 = roundsOf st gid2)
      ∧ ((roundsOf (saveGameData 1 0 emptyStore d5Details).2.2
            (saveGameData 1 0 emptyStore d5Details).2.1).length = 5
          ∧ (roundsOf (saveGameData 1 0 (saveGameData 1 0 emptyStore d5Details).2.2
              d3Details).2.2
            (saveGameData 1 0 (saveGameData 1 0 emptyStore d5Details).2.2 d3Details).2.1).length
            = 3) := by
  constructor
  · intro st u now d _
    unfold saveGameData
    cases hf : findGame st d.token with
    | none =>
      constructor
      · exact roundsOf_saveRoundsStore_self u st.nextId d _
      · intro gid2 hg
        exact roundsOf_saveRoundsStore_other u st.nextId d _ gid2 hg
    | some g0 =>
      constructor
      · exact roundsOf_saveRoundsStore_self u g0.id d _
      · intro gid2 hg
        exact roundsOf_saveRoundsStore_other u g0.id d _ gid2 hg
  · constructor <;> decide

/-- Closed witness for C3 at the repository's own one-round fixture. -/
theorem saveGameData_replaces_children_witness :
    roundsOf (saveGameData 1 0 emptyStore seDetails).2.2
        (saveGameData 1 0 emptyStore seDetails).2.1 =
      (buildRounds 1 (saveGameData 1 0 emptyStore seDetails).2.1 0 seDetails.rounds
        seDetails.player.guesses).map applyRoundSchema :=
  (saveGameData_replaces_children.1 emptyStore 1 0 seDetails (by decide)).1

/-! ## Per-token processing: observations on the store -/

def exOk {α : Type} : Except String α → Bool
  | .ok _ => true
  | .error _ => false

/-- Token t is processed without failure: its detail fetch succeeds and no
store exception is injected for it. -/
def okTok (env : SyncEnv) (t : String) : Bool :=
  exOk (env.details t) && (env.saveFail t).isNone

/-- The error entry recorded for a failing token. -/
def failMsg (env : SyncEnv) (t : String) : String :=
  match env.details t with
  | .error e => procErrMsg t e
  | .ok _ =>
    match env.saveFail t with
    | some e => procErrMsg t e
    | none => ""

def hasGame (st : Store) (t : String) : Bool := (findGame st t).isSome

/-- A parent with the token exists and has details_fetched set — the
idempotent skip signal. -/
def fetchedGame (st : Store) (t : String) : Bool :=
  match findGame st t with
  | some g => g.details_fetched
  | none => false

/-- Number of parent records carrying the token. -/
def gameCount (st : Store) (t : String) : ℕ :=
  (st.games.filter (fun g => g.game_token == t)).length

/-- The remote detail payload for a token carries that token — the
well-formedness of the external service assumed by saveGameData, which
looks the game up by gameDetails.token. -/
def EnvConsistent (env : SyncEnv) : Prop :=
  ∀ t d, env.details t = .ok d → d.token = t

lemma fetchedGame_none (st : Store) (t : String) (hf : findGame st t = none) :
    fetchedGame st t = false := by
  unfold fetchedGame
  rw [hf]

lemma fetchedGame_some (st : Store) (t : String) (g : GameRecord)
    (hf : findGame st t = some g) : fetchedGame st t = g.details_fetched := by
  unfold fetchedGame
  rw [hf]

lemma hasGame_iff_gameCount (st : Store) (t : String) :
    hasGame st t = false ↔ gameCount st t = 0 := by
  unfold hasGame gameCount findGame
  constructor
  · intro h
    rw [List.length_eq_zero, List.filter_eq_nil_iff]
    intro a ha
    have hn : st.games.find? (fun g => g.game_token == t) = none := by
      cases hf : st.games.find? (fun g => g.game_token == t) with
      | none => rfl
      | some g => rw [hf] at h; simp at h
    simpa using List.find?_eq_none.mp hn a ha
  · intro h
    rw [List.length_eq_zero, List.filter_eq_nil_iff] at h
    cases hf : st.games.find? (fun g => g.game_token == t) with
    | none => simp
    | some g =>
      have hg := List.find?_some hf
      have hmem := List.mem_of_find?_eq_some hf
      exact absurd hg (by simpa using h g hmem)

lemma processToken_skip (env : SyncEnv) (u : ℕ) (acc : SyncResult × Store) (tok : String)
    (h : fetchedGame acc.2 tok = true) : processToken env u acc tok = acc := by
  unfold processToken
  cases hf : findGame acc.2 tok with
  | none => rw [fetchedGame_none acc.2 tok hf] at h; exact absurd h (by simp)
  | some g => rw [fetchedGame_some acc.2 tok g hf] at h; simp [h]

lemma processToken_not_fetched (env : SyncEnv) (u : ℕ) (acc : SyncResult × Store) (tok : String)
    (h : fetchedGame acc.2 tok = false) :
    processToken env u acc tok = fetchAndSave env u acc tok := by
  unfold processToken
  cases hf : findGame acc.2 tok with
  | none => rfl
  | some g => rw [fetchedGame_some acc.2 tok g hf] at h; simp [h]

lemma fetchAndSave_fail (env : SyncEnv) (u : ℕ) (acc : SyncResult × Store) (tok : String)
    (h : okTok env tok = false) :
    fetchAndSave env u acc tok =
      ({ acc.1 with errors := acc.1.errors ++ [failMsg env tok] }, acc.2) := by
  unfold okTok exOk at h
  unfold fetchAndSave failMsg
  cases hd : env.details tok with
  | error e => rfl
  | ok d =>
    rw [hd] at h
    cases hs : env.saveFail tok with
    | none => rw [hs] at h; simp at h
    | some e => rfl

lemma fetchAndSave_ok (env : SyncEnv) (u : ℕ) (acc : SyncResult × Store) (tok : String)
    (d : GameDetails) (hd : env.details tok = .ok d) (hs : env.saveFail tok = none) :
    fetchAndSave env u acc tok =
      (if (saveGameData u env.now acc.2 d).1 then
        ({ acc.1 with
            newGames := acc.1.newGames + 1
            gamesProcessed := acc.1.gamesProcessed + 1 }, (saveGameData u env.now acc.2 d).2.2)
      else
        ({ acc.1 with
            updatedGames := acc.1.updatedGames + 1
            gamesProcessed := acc.1.gamesProcessed + 1 }, (saveGameData u env.now acc.2 d).2.2)) := by
  unfold fetchAndSave
  rw [hd, hs]

lemma saveGameData_absent (u now : ℕ) (st : Store) (d : GameDetails)
    (h : findGame st d.token = none) :
    saveGameData u now st d =
      (true, st.nextId,
        saveRoundsStore u st.nextId d
          ⟨st.games ++ [mkGameRecord st.nextId u now d], st.rounds, st.nextId + 1⟩) := by
  unfold saveGameData
  rw [h]

lemma saveGameData_present (u now : ℕ) (st : Store) (d : GameDetails) (g0 : GameRecord)
    (h : findGame st d.token = some g0) :
    saveGameData u now st d =
      (false, g0.id,
        saveRoundsStore u g0.id d
          ⟨updateFirstGame d.token d st.games, st.rounds, st.nextId⟩) := by
  unfold saveGameData
  rw [h]

/-! ## Effect of saveGameData on the games collection -/

lemma updGameRecord_game_token (g : GameRecord) (d : GameDetails) :
    (updGameRecord g d).game_token = g.game_token := rfl

lemma updGameRecord_details_fetched (g : GameRecord) (d : GameDetails) :
    (updGameRecord g d).details_fetched = true := rfl

lemma updateFirstGame_cons_pos (tok : String) (d : GameDetails) (a : GameRecord)
    (as : List GameRecord) (ha : (a.game_token == tok) = true) :
    updateFirstGame tok d (a :: as) = updGameRecord a d :: as := by
  simp [updateFirstGame, ha]

lemma updateFirstGame_cons_neg (tok : String) (d : GameDetails) (a : GameRecord)
    (as : List GameRecord) (ha : (a.game_token == tok) = false) :
    updateFirstGame tok d (a :: as) = a :: updateFirstGame tok d as := by
  simp [updateFirstGame, ha]

lemma find?_token_cons_pos (a : GameRecord) (l : List GameRecord) (t : String)
    (h : (a.game_token == t) = true) :
    (a :: l).find? (fun g => g.game_token == t) = some a :=
  List.find?_cons_of_pos l h

lemma find?_token_cons_neg (a : GameRecord) (l : List GameRecord) (t : String)
    (h : (a.game_token == t) = false) :
    (a :: l).find? (fun g => g.game_token == t) = l.find? (fun g => g.game_token == t) :=
  List.find?_cons_of_neg l (by simp [h])

lemma find?_append_one (l : List GameRecord) (g : GameRecord) (p : GameRecord → Bool) :
    (l ++ [g]).find? p = ((l.find? p).or (if p g then some g else none)) := by
  rw [List.find?_append]
  congr 1
  cases h : p g with
  | true => rw [List.find?_cons_of_pos _ h]; simp
  | false => rw [List.find?_cons_of_neg _ (by simp [h])]; simp [List.find?]

lemma find?_updateFirstGame_self (tok : String) (d : GameDetails) (l : List GameRecord)
    (g0 : GameRecord) (h : l.find? (fun g => g.game_token == tok) = some g0) :
    (updateFirstGame tok d l).find? (fun g => g.game_token == tok) =
      some (updGameRecord g0 d) := by
  induction l with
  | nil => simp at h
  | cons a as ih =>
    cases ha : (a.game_token == tok) with
    | true =>
      rw [find?_token_cons_pos a as tok ha] at h
      have h0 : g0 = a := by simpa using h.symm
      rw [updateFirstGame_cons_pos tok d a as ha, h0,
        find?_token_cons_pos (updGameRecord a d) as tok
          (by rw [updGameRecord_game_token]; exact ha)]
    | false =>
      rw [find?_token_cons_neg a as tok ha] at h
      rw [updateFirstGame_cons_neg tok d a as ha,
        find?_token_cons_neg a (updateFirstGame tok d as) tok ha]
      exact ih h

lemma find?_updateFirstGame_ne (tok : String) (d : GameDetails) (l : List GameRecord)
    (t : String) (h : t ≠ tok) :
    (updateFirstGame tok d l).find? (fun g => g.game_token == t) =
      l.find? (fun g => g.game_token == t) := by
  induction l with
  | nil => rfl
  | cons a as ih =>
    cases ha : (a.game_token == tok) with
    | true =>
      have hat : a.game_token = tok := by simpa using ha
      have h1 : ((updGameRecord a d).game_token == t) = false := by
        rw [updGameRecord_game_token, hat]
        simpa using (Ne.symm h)
      have h2 : (a.game_token == t) = false := by
        rw [hat]; simpa using (Ne.symm h)
      rw [updateFirstGame_cons_pos tok d a as ha,
        find?_token_cons_neg (updGameRecord a d) as t h1, find?_token_cons_neg a as t h2]
    | false =>
      rw [updateFirstGame_cons_neg tok d a as ha]
      cases hat : (a.game_token == t) with
      | true =>
        rw [find?_token_cons_pos a (updateFirstGame tok d as) t hat,
          find?_token_cons_pos a as t hat]
      | false =>
        rw [find?_token_cons_neg a (updateFirstGame tok d as) t hat,
          find?_token_cons_neg a as t hat]
        exact ih

lemma filter_updateFirstGame_length (tok : String) (d : GameDetails) (l : List GameRecord)
    (t : String) :
    ((updateFirstGame tok d l).filter (fun g => g.game_token == t)).length =
      (l.filter (fun g => g.game_token == t)).length := by
  induction l with
  | nil => rfl
  | cons a as ih =>
    cases ha : (a.game_token == tok) with
    | true =>
      have hupd : ((updGameRecord a d).game_token == t) = (a.game_token == t) := by
        rw [updGameRecord_game_token]
      rw [updateFirstGame_cons_pos tok d a as ha]
      cases hat : (a.game_token == t) <;>
        simp [List.filter_cons, hupd, hat]
    | false =>
      rw [updateFirstGame_cons_neg tok d a as ha]
      cases hat : (a.game_token == t) <;> simp [List.filter_cons, hat, ih]

lemma fetchedGame_true_iff (st : Store) (x : String) :
    fetchedGame st x = true ↔
      ∃ g, findGame st x = some g ∧ g.details_fetched = true := by
  unfold fetchedGame
  cases h : findGame st x <;> simp

lemma mkGameRecord_game_token (gid u now : ℕ) (d : GameDetails) :
    (mkGameRecord gid u now d).game_token = d.token := rfl

lemma saveGameData_games_absent (u now : ℕ) (st : Store) (d : GameDetails)
    (hfd : findGame st d.token = none) :
    (saveGameData u now st d).2.2.games = st.games ++ [mkGameRecord st.nextId u now d] := by
  rw [saveGameData_absent u now st d hfd, saveRoundsStore_games]

lemma saveGameData_games_present (u now : ℕ) (st : Store) (d : GameDetails) (g0 : GameRecord)
    (hfd : findGame st d.token = some g0) :
    (saveGameData u now st d).2.2.games = updateFirstGame d.token d st.games := by
  rw [saveGameData_present u now st d g0 hfd, saveRoundsStore_games]

lemma saveGameData_isNew (u now : ℕ) (st : Store) (d : GameDetails) :
    (saveGameData u now st d).1 = (findGame st d.token).isNone := by
  cases hfd : findGame st d.token with
  | none => rw [saveGameData_absent u now st d hfd]; rfl
  | some g0 => rw [saveGameData_present u now st d g0 hfd]; rfl

lemma saveGameData_sets_fetched (u now : ℕ) (st : Store) (d : GameDetails) :
    fetchedGame (saveGameData u now st d).2.2 d.token = true := by
  rw [fetchedGame_true_iff]
  cases hfd : findGame st d.token with
  | none =>
    refine ⟨mkGameRecord st.nextId u now d, ?_, rfl⟩
    unfold findGame
    rw [saveGameData_games_absent u now st d hfd, find?_append_one]
    unfold findGame at hfd
    rw [hfd]
    simp [mkGameRecord_game_token]
  | some g0 =>
    refine ⟨updGameRecord g0 d, ?_, rfl⟩
    unfold findGame
    rw [saveGameData_games_present u now st d g0 hfd]
    exact find?_updateFirstGame_self d.token d st.games g0 hfd

lemma saveGameData_mono_fetched (u now : ℕ) (st : Store) (d : GameDetails) (x : String)
    (hx : fetchedGame st x = true) :
    fetchedGame (saveGameData u now st d).2.2 x = true := by
  obtain ⟨g, hfind, hfet⟩ := (fetchedGame_true_iff st x).mp hx
  by_cases hxd : x = d.token
  · subst hxd
    exact saveGameData_sets_fetched u now st d
  · rw [fetchedGame_true_iff]
    refine ⟨g, ?_, hfet⟩
    cases hfd : findGame st d.token with
    | none =>
      unfold findGame
      rw [saveGameData_games_absent u now st d hfd, find?_append_one]
      unfold findGame at hfind
      rw [hfind]
      simp
    | some g0 =>
      unfold findGame
      rw [saveGameData_games_present u now st d g0 hfd,
        find?_updateFirstGame_ne d.token d st.games x hxd]
      exact hfind

lemma saveGameData_gameCount_absent (u now : ℕ) (st : Store) (d : GameDetails)
    (hfd : findGame st d.token = none) (t : String) :
    gameCount (saveGameData u now st d).2.2 t =
      gameCount st t + (if d.token = t then 1 else 0) := by
  unfold gameCount
  rw [saveGameData_games_absent u now st d hfd, List.filter_append, List.length_append]
  congr 1
  by_cases h : d.token = t <;>
    simp [List.filter_cons, mkGameRecord_game_token, h]

lemma saveGameData_gameCount_present (u now : ℕ) (st : Store) (d : GameDetails)
    (g0 : GameRecord) (hfd : findGame st d.token = some g0) (t : String) :
    gameCount (saveGameData u now st d).2.2 t = gameCount st t := by
  unfold gameCount
  rw [saveGameData_games_present u now st d g0 hfd]
  exact filter_updateFirstGame_length d.token d st.games t

/-! ## Behavior of one loop iteration -/

lemma hasGame_false_iff (st : Store) (t : String) :
    hasGame st t = false ↔ findGame st t = none := by
  unfold hasGame
  cases findGame st t <;> simp

lemma fetchedGame_false_of_not_has (st : Store) (t : String) (h : hasGame st t = false) :
    fetchedGame st t = false :=
  fetchedGame_none st t ((hasGame_false_iff st t).mp h)

lemma okTok_ok (env : SyncEnv) (tok : String) (h : okTok env tok = true) :
    ∃ d, env.details tok = .ok d ∧ env.saveFail tok = none := by
  unfold okTok exOk at h
  cases hd : env.details tok with
  | error e => rw [hd] at h; simp at h
  | ok d =>
    rw [hd] at h
    cases hs : env.saveFail tok with
    | none => exact ⟨d, rfl, rfl⟩
    | some e => rw [hs] at h; simp at h

lemma okTok_false_of_details (env : SyncEnv) (tok e : String)
    (hd : env.details tok = .error e) : okTok env tok = false := by
  unfold okTok exOk
  rw [hd]
  rfl

lemma okTok_false_of_saveFail (env : SyncEnv) (tok e : String) (d : GameDetails)
    (hd : env.details tok = .ok d) (hs : env.saveFail tok = some e) :
    okTok env tok = false := by
  unfold okTok exOk
  rw [hd, hs]
  rfl

lemma processToken_fail (env : SyncEnv) (u : ℕ) (acc : SyncResult × Store) (tok : String)
    (hok : okTok env tok = false) (hft : fetchedGame acc.2 tok = false) :
    processToken env u acc tok =
      ({ acc.1 with errors := acc.1.errors ++ [failMsg env tok] }, acc.2) := by
  rw [processToken_not_fetched env u acc tok hft, fetchAndSave_fail env u acc tok hok]

lemma processToken_ok_absent (env : SyncEnv) (u : ℕ) (acc : SyncResult × Store) (tok : String)
    (d : GameDetails) (hd : env.details tok = .ok d) (hs : env.saveFail tok = none)
    (habs : hasGame acc.2 tok = false) (htok : d.token = tok) :
    processToken env u acc tok =
      ({ acc.1 with
          newGames := acc.1.newGames + 1
          gamesProcessed := acc.1.gamesProcessed + 1 },
        (saveGameData u env.now acc.2 d).2.2) := by
  rw [processToken_not_fetched env u acc tok (fetchedGame_false_of_not_has acc.2 tok habs),
    fetchAndSave_ok env u acc tok d hd hs]
  have hnew : (saveGameData u env.now acc.2 d).1 = true := by
    rw [saveGameData_isNew, htok, (hasGame_false_iff acc.2 tok).mp habs]
    rfl
  rw [if_pos hnew]

lemma processToken_mono_fetched (env : SyncEnv) (u : ℕ) (acc : SyncResult × Store)
    (tok x : String) (hx : fetchedGame acc.2 x = true) :
    fetchedGame (processToken env u acc tok).2 x = true := by
  by_cases hft : fetchedGame acc.2 tok = true
  · rw [processToken_skip env u acc tok hft]; exact hx
  · rw [processToken_not_fetched env u acc tok (by simpa using hft)]
    cases hd : env.details tok with
    | error e =>
      rw [fetchAndSave_fail env u acc tok (okTok_false_of_details env tok e hd)]
      exact hx
    | ok d =>
      cases hs : env.saveFail tok with
      | some e =>
        rw [fetchAndSave_fail env u acc tok (okTok_false_of_saveFail env tok e d hd hs)]
        exact hx
      | none =>
        rw [fetchAndSave_ok env u acc tok d hd hs]
        cases hn : (saveGameData u env.now acc.2 d).1 <;>
          simpa [hn] using saveGameData_mono_fetched u env.now acc.2 d x hx

lemma processToken_sets_fetched (env : SyncEnv) (u : ℕ) (acc : SyncResult × Store)
    (tok : String) (hok : okTok env tok = true) (hc : EnvConsistent env) :
    fetchedGame (processToken env u acc tok).2 tok = true := by
  by_cases hft : fetchedGame acc.2 tok = true
  · rw [processToken_skip env u acc tok hft]; exact hft
  · obtain ⟨d, hd, hs⟩ := okTok_ok env tok hok
    have htok := hc tok d hd
    rw [processToken_not_fetched env u acc tok (by simpa using hft),
      fetchAndSave_ok env u acc tok d hd hs]
    cases hn : (saveGameData u env.now acc.2 d).1 <;>
      simpa [hn, htok] using saveGameData_sets_fetched u env.now acc.2 d

lemma processToken_gameCount_frame (env : SyncEnv) (u : ℕ) (acc : SyncResult × Store)
    (tok t : String) (hc : EnvConsistent env) (hne : t ≠ tok) :
    gameCount (processToken env u acc tok).2 t = gameCount acc.2 t := by
  by_cases hft : fetchedGame acc.2 tok = true
  · rw [processToken_skip env u acc tok hft]
  · rw [processToken_not_fetched env u acc tok (by simpa using hft)]
    cases hd : env.details tok with
    | error e =>
      rw [fetchAndSave_fail env u acc tok (okTok_false_of_details env tok e hd)]
    | ok d =>
      have htok := hc tok d hd
      cases hs : env.saveFail tok with
      | some e =>
        rw [fetchAndSave_fail env u acc tok (okTok_false_of_saveFail env tok e d hd hs)]
      | none =>
        rw [fetchAndSave_ok env u acc tok d hd hs]
        have hstep : gameCount (saveGameData u env.now acc.2 d).2.2 t = gameCount acc.2 t := by
          cases hfd : findGame acc.2 d.token with
          | none =>
            rw [saveGameData_gameCount_absent u env.now acc.2 d hfd t, htok]
            simp [Ne.symm hne]
          | some g0 => exact saveGameData_gameCount_present u env.now acc.2 d g0 hfd t
        cases hn : (saveGameData u env.now acc.2 d).1 <;> simpa [hn] using hstep

/-! ## The phase-2 loop over the whole token list -/

/-- The phase-2 loop of syncAllData as a function of the starting
accumulator. -/
def runToks (env : SyncEnv) (u : ℕ) (toks : List String) (res : SyncResult) (st : Store) :
    SyncResult × Store :=
  toks.foldl (processToken env u) (res, st)

lemma runToks_cons (env : SyncEnv) (u : ℕ) (t : String) (ts : List String)
    (res : SyncResult) (st : Store) :
    runToks env u (t :: ts) res st =
      runToks env u ts (processToken env u (res, st) t).1 (processToken env u (res, st) t).2 := by
  unfold runToks
  rw [List.foldl_cons]

lemma runToks_mono_fetched (env : SyncEnv) (u : ℕ) (toks : List String)
    (res : SyncResult) (st : Store) (x : String) (hx : fetchedGame st x = true) :
    fetchedGame (runToks env u toks res st).2 x = true := by
  induction toks generalizing res st with
  | nil => exact hx
  | cons t ts ih =>
    rw [runToks_cons]
    exact ih _ _ (processToken_mono_fetched env u (res, st) t x hx)

lemma runToks_spec (env : SyncEnv) (u : ℕ) (hc : EnvConsistent env) :
    ∀ (toks : List String) (res : SyncResult) (st : Store), toks.Nodup →
      (∀ t ∈ toks, hasGame st t = false) →
      (runToks env u toks res st).1.gamesProcessed =
          res.gamesProcessed + (toks.filter (fun t => okTok env t)).length
        ∧ (runToks env u toks res st).1.newGames =
            res.newGames + (toks.filter (fun t => okTok env t)).length
        ∧ (runToks env u toks res st).1.updatedGames = res.updatedGames
        ∧ (runToks env u toks res st).1.errors =
            res.errors ++ (toks.filter (fun t => ! okTok env t)).map (failMsg env)
        ∧ (∀ t ∈ toks, okTok env t = true →
            fetchedGame (runToks env u toks res st).2 t = true
              ∧ gameCount (runToks env u toks res st).2 t = 1)
        ∧ (∀ t, t ∉ toks →
            gameCount (runToks env u toks res st).2 t = gameCount st t) := by
  intro toks
  induction toks with
  | nil =>
    intro res st _ _
    refine ⟨by simp [runToks], by simp [runToks], by simp [runToks], by simp [runToks],
      by simp, fun t _ => by simp [runToks]⟩
  | cons t ts ih =>
    intro res st hnodup habs
    have hnott : t ∉ ts := (List.nodup_cons.mp hnodup).1
    have hnodup2 : ts.Nodup := (List.nodup_cons.mp hnodup).2
    have habs_t : hasGame st t = false := habs t (List.mem_cons_self t ts)
    have habs_ts : ∀ x ∈ ts, hasGame st x = false :=
      fun x hx => habs x (List.mem_cons_of_mem t hx)
    by_cases hok : okTok env t = true
    · obtain ⟨d, hd, hs⟩ := okTok_ok env t hok
      have htok := hc t d hd
      have hstep := processToken_ok_absent env u (res, st) t d hd hs habs_t htok
      have hfd : findGame st d.token = none := by
        rw [htok]; exact (hasGame_false_iff st t).mp habs_t
      have hcount : ∀ x, gameCount (saveGameData u env.now st d).2.2 x =
          gameCount st x + (if d.token = x then 1 else 0) :=
        saveGameData_gameCount_absent u env.now st d hfd
      have hcount_t : gameCount (saveGameData u env.now st d).2.2 t = 1 := by
        rw [hcount t, (hasGame_iff_gameCount st t).mp habs_t, htok]
        simp
      have hfet_t : fetchedGame (saveGameData u env.now st d).2.2 t = true := by
        have := saveGameData_sets_fetched u env.now st d
        rwa [htok] at this
      have habs1 : ∀ x ∈ ts, hasGame (saveGameData u env.now st d).2.2 x = false := by
        intro x hx
        rw [hasGame_iff_gameCount, hcount x, (hasGame_iff_gameCount st x).mp (habs_ts x hx),
          htok]
        have : ¬ t = x := fun he => hnott (he ▸ hx)
        simp [this]
      have hout := ih
        ({ res with
            newGames := res.newGames + 1
            gamesProcessed := res.gamesProcessed + 1 })
        (saveGameData u env.now st d).2.2 hnodup2 habs1
      rw [runToks_cons, hstep]
      obtain ⟨h1, h2, h3, h4, h5, h6⟩ := hout
      have hfiltpos : (t :: ts).filter (fun x => okTok env x) =
          t :: ts.filter (fun x => okTok env x) := List.filter_cons_of_pos hok
      have hfiltneg : (t :: ts).filter (fun x => ! okTok env x) =
          ts.filter (fun x => ! okTok env x) :=
        List.filter_cons_of_neg (by simp [hok])
      refine ⟨?_, ?_, ?_, ?_, ?_, ?_⟩
      · rw [h1, hfiltpos]
        simp
        omega
      · rw [h2, hfiltpos]
        simp
        omega
      · simpa using h3
      · rw [h4, hfiltneg]
      · intro x hx hokx
        rcases List.mem_cons.mp hx with hxt | hxts
        · subst hxt
          constructor
          · exact runToks_mono_fetched env u ts _ _ x hfet_t
          · rw [h6 x hnott, hcount_t]
        · exact h5 x hxts hokx
      · intro x hnx
        have hxt : ¬ x = t := fun he => hnx (he ▸ List.mem_cons_self t ts)
        have hxts : x ∉ ts := fun hmem => hnx (List.mem_cons_of_mem t hmem)
        rw [h6 x hxts, hcount x, htok]
        have htx : ¬ t = x := fun he => hxt he.symm
        simp [htx]
    · have hokF : okTok env t = false := by simpa using hok
      have hstep := processToken_fail env u (res, st) t hokF
        (fetchedGame_false_of_not_has st t habs_t)
      have hout := ih ({ res with errors := res.errors ++ [failMsg env t] }) st hnodup2 habs_ts
      rw [runToks_cons, hstep]
      obtain ⟨h1, h2, h3, h4, h5, h6⟩ := hout
      have hfiltpos : (t :: ts).filter (fun x => okTok env x) =
          ts.filter (fun x => okTok env x) := List.filter_cons_of_neg (by simp [hokF])
      have hfiltneg : (t :: ts).filter (fun x => ! okTok env x) =
          t :: ts.filter (fun x => ! okTok env x) :=
        List.filter_cons_of_pos (by simp [hokF])
      refine ⟨?_, ?_, ?_, ?_, ?_, ?_⟩
      · rw [h1, hfiltpos]
      · rw [h2, hfiltpos]
      · simpa using h3
      · rw [h4, hfiltneg]
        simp
      · intro x hx hokx
        rcases List.mem_cons.mp hx with hxt | hxts
        · subst hxt
          rw [hokx] at hokF
          simp at hokF
        · exact h5 x hxts hokx
      · intro x hnx
        exact h6 x (fun hmem => hnx (List.mem_cons_of_mem t hmem))

/-- Claim C2: a run in which some per-token detail fetches fail still
completes: the processed count is the number of successfully processed
tokens, each failing token contributes exactly one error entry (in order),
success is exactly emptiness of the error list, and every successfully
processed token's parent is committed with details_fetched set and exactly
one record. -/
theorem syncAllData_partial_failure (env : SyncEnv) (u : ℕ) (st : Store) (toks : List String)
    (hc : EnvConsistent env) (htk : env.tokens = .ok toks) (hnodup : toks.Nodup)
    (habs : ∀ t ∈ toks, hasGame st t = false) (hu : env.userUpdateFail = none)
    (hne : toks ≠ []) :
    (syncAllData env u st).1.gamesProcessed = (toks.filter (fun t => okTok env t)).length
      ∧ (syncAllData env u st).1.errors =
          (toks.filter (fun t => ! okTok env t)).map (failMsg env)
      ∧ (syncAllData env u st).1.success = (syncAllData env u st).1.errors.isEmpty
      ∧ (∀ t ∈ toks, okTok env t = true →
          fetchedGame (syncAllData env u st).2 t = true
            ∧ gameCount (syncAllData env u st).2 t = 1) := by
  obtain ⟨h1, h2, h3, h4, h5, h6⟩ := runToks_spec env u hc toks initResult st hnodup habs
  have hemp : toks.isEmpty = false := by
    cases toks with
    | nil => exact absurd rfl hne
    | cons a as => rfl
  unfold syncAllData
  rw [htk]
  have hrt : toks.foldl (processToken env u) (initResult, st) = runToks env u toks initResult st :=
    rfl
  simp only [hemp, Bool.false_eq_true, if_false, hrt, hu]
  refine ⟨?_, ?_, ?_, ?_⟩
  · simpa [initResult] using h1
  · simpa [initResult] using h4
  · simp
  · intro t ht hokt
    exact h5 t ht hokt

/-- The partial-failure fixture of the claim: five tokens, the detail
fetch of the third raises DetailError. -/
def fiveTokens : List String := ["t1", "t2", "t3", "t4", "t5"]

def detailsFor (t : String) : GameDetails := { seDetails with token := t }

def envPartial : SyncEnv where
  tokens := .ok fiveTokens
  details := fun t => if t = "t3" then .error "DetailError" else .ok (detailsFor t)
  saveFail := fun _ => none
  userUpdateFail := none
  now := 0
  elapsed := 11

lemma envPartial_consistent : EnvConsistent envPartial := by
  intro t d h
  by_cases ht : t = "t3"
  · simp [envPartial, ht] at h
  · simp [envPartial, ht, detailsFor] at h
    rw [← h]

/-- Closed witness for C2: the concrete 5-token run of the claim reports
4 processed, the single error for the third token, and success = false,
while the other tokens are committed. -/
theorem syncAllData_partial_failure_witness :
    (syncAllData envPartial 1 emptyStore).1.gamesProcessed = 4
      ∧ (syncAllData envPartial 1 emptyStore).1.errors =
          ["Failed to process game t3: DetailError"]
      ∧ (syncAllData envPartial 1 emptyStore).1.success = false
      ∧ fetchedGame (syncAllData envPartial 1 emptyStore).2 "t1" = true := by
  have h := syncAllData_partial_failure envPartial 1 emptyStore fiveTokens
    envPartial_consistent rfl (by decide) (by decide) rfl (by decide)
  refine ⟨?_, ?_, ?_, ?_⟩
  · rw [h.1]; decide
  · rw [h.2.1]; decide
  · rw [h.2.2.1, h.2.1]; decide
  · exact (h.2.2.2 "t1" (by decide) (by decide)).1

/-! ## Idempotent re-sync -/

lemma runToks_all_fetched (env : SyncEnv) (u : ℕ) (hc : EnvConsistent env)
    (toks : List String) (res : SyncResult) (st : Store)
    (hok : ∀ t ∈ toks, okTok env t = true) :
    ∀ t ∈ toks, fetchedGame (runToks env u toks res st).2 t = true := by
  induction toks generalizing res st with
  | nil => simp
  | cons a as ih =>
    intro t ht
    rw [runToks_cons]
    rcases List.mem_cons.mp ht with hxt | hxts
    · subst hxt
      exact runToks_mono_fetched env u as _ _ t
        (processToken_sets_fetched env u (res, st) t (hok t (List.mem_cons_self t as)) hc)
    · exact ih _ _ (fun x hx => hok x (List.mem_cons_of_mem a hx)) t hxts

lemma runToks_all_skip (env : SyncEnv) (u : ℕ) (toks : List String) (res : SyncResult)
    (st : Store) (hf : ∀ t ∈ toks, fetchedGame st t = true) :
    runToks env u toks res st = (res, st) := by
  induction toks with
  | nil => rfl
  | cons a as ih =>
    rw [runToks_cons, processToken_skip env u (res, st) a (hf a (List.mem_cons_self a as))]
    exact ih (fun x hx => hf x (List.mem_cons_of_mem a hx))

lemma syncAllData_store_eq (env : SyncEnv) (u : ℕ) (st : Store) (toks : List String)
    (htk : env.tokens = .ok toks) :
    (syncAllData env u st).2 = (runToks env u toks initResult st).2 := by
  unfold syncAllData
  rw [htk]
  by_cases hemp : toks.isEmpty
  · have hnil : toks = [] := List.isEmpty_iff.mp hemp
    subst hnil
    simp [runToks]
  · have hemp2 : toks.isEmpty = false := by simpa using hemp
    simp only [hemp2, Bool.false_eq_true, if_false]
    cases env.userUpdateFail <;> rfl

lemma syncAllData_all_skip (env : SyncEnv) (u : ℕ) (st : Store) (toks : List String)
    (htk : env.tokens = .ok toks) (hfet : ∀ t ∈ toks, fetchedGame st t = true) :
    (syncAllData env u st).2 = st ∧ (syncAllData env u st).1.newGames = 0
      ∧ (syncAllData env u st).1.gamesProcessed = 0 := by
  unfold syncAllData
  rw [htk]
  by_cases hemp : toks.isEmpty
  · have hemp2 : toks.isEmpty = true := by simpa using hemp
    simp [hemp2, initResult]
  · have hemp2 : toks.isEmpty = false := by simpa using hemp
    simp only [hemp2, Bool.false_eq_true, if_false]
    have hid : toks.foldl (processToken env u) (initResult, st) = (initResult, st) :=
      runToks_all_skip env u toks initResult st hfet
    rw [hid]
    cases env.userUpdateFail <;> simp [initResult]

lemma syncAllData_fetched_all (env : SyncEnv) (u : ℕ) (st : Store) (toks : List String)
    (hc : EnvConsistent env) (htk : env.tokens = .ok toks)
    (hok : ∀ t ∈ toks, okTok env t = true) :
    ∀ t ∈ toks, fetchedGame (syncAllData env u st).2 t = true := by
  intro t ht
  rw [syncAllData_store_eq env u st toks htk]
  exact runToks_all_fetched env u hc toks initResult st hok t ht

/-- Claim C4: sync is idempotent. After a first run in which every token
of the feed was processed successfully, a second run over the same token
list skips every token: its result has newGames = 0 and the persisted
store is exactly the store left by the first run. The second run's
environment is arbitrary in its detail fetches and store failures — the
skip path never consults them, which is the no-network-call,
no-write short-circuit of the claim. -/
theorem syncAllData_idempotent (env1 env2 : SyncEnv) (u : ℕ) (st : Store)
    (toks : List String) (hc : EnvConsistent env1) (htk1 : env1.tokens = .ok toks)
    (htk2 : env2.tokens = .ok toks) (hok : ∀ t ∈ toks, okTok env1 t = true) :
    (syncAllData env2 u (syncAllData env1 u st).2).2 = (syncAllData env1 u st).2
      ∧ (syncAllData env2 u (syncAllData env1 u st).2).1.newGames = 0
      ∧ (syncAllData env2 u (syncAllData env1 u st).2).1.gamesProcessed = 0 := by
  have hfet : ∀ t ∈ toks, fetchedGame (syncAllData env1 u st).2 t = true :=
    syncAllData_fetched_all env1 u st toks hc htk1 hok
  exact syncAllData_all_skip env2 u (syncAllData env1 u st).2 toks htk2 hfet

/-- The all-successful first-run environment and a second-run environment
whose detail fetches and store writes would all fail, for the closed C4
witness. -/
def envAllOk : SyncEnv where
  tokens := .ok fiveTokens
  details := fun t => .ok (detailsFor t)
  saveFail := fun _ => none
  userUpdateFail := none
  now := 0
  elapsed := 4

def envSecond : SyncEnv where
  tokens := .ok fiveTokens
  details := fun _ => .error "offline"
  saveFail := fun _ => some "db down"
  userUpdateFail := none
  now := 1
  elapsed := 9

lemma envAllOk_consistent : EnvConsistent envAllOk := by
  intro t d h
  simp [envAllOk, detailsFor] at h
  rw [← h]

/-- Closed witness for C4: the concrete second run over the unchanged
5-token feed leaves the store identical and creates nothing, although its
detail fetches and store writes would all fail if consulted. -/
theorem syncAllData_idempotent_witness :
    (syncAllData envSecond 1 (syncAllData envAllOk 1 emptyStore).2).2 =
        (syncAllData envAllOk 1 emptyStore).2
      ∧ (syncAllData envSecond 1 (syncAllData envAllOk 1 emptyStore).2).1.newGames = 0 := by
  have h := syncAllData_idempotent envAllOk envSecond 1 emptyStore fiveTokens
    envAllOk_consistent rfl rfl (by decide)
  exact ⟨h.1, h.2.1⟩

/-! ## Pagination: dedup invariant and first-discovery order -/

/-- The candidate tokens a feed entry contributes, in payload order:
nothing unless the entry is a type-1 game completion with a parsable
payload. -/
def entryTokens (e : FeedEntry) : List String :=
  if e.etype = 1 then
    match e.payloads with
    | .error _ => []
    | .ok ps => ps.filterMap id
  else []

/-- All candidate tokens of a page, in page order. -/
def pageTokens (page : FeedPage) : List String :=
  (page.entries.map entryTokens).flatten

/-- Reference description of first-discovery dedup: keep a candidate
exactly when it is truthy and not yet seen, in traversal order. -/
def newFirst (seen : List String) : List String → List String
  | [] => []
  | t :: ts => if t ≠ "" ∧ t ∉ seen then t :: newFirst (seen ++ [t]) ts else newFirst seen ts

lemma newFirst_append (a : List String) :
    ∀ (seen b : List String),
      newFirst seen (a ++ b) = newFirst seen a ++ newFirst (seen ++ newFirst seen a) b := by
  induction a with
  | nil => intro seen b; simp [newFirst]
  | cons t ts ih =>
    intro seen b
    by_cases hcnd : t ≠ "" ∧ t ∉ seen
    · rw [List.cons_append]
      rw [newFirst, if_pos hcnd, newFirst, if_pos hcnd, ih (seen ++ [t]) b,
        List.cons_append]
      congr 2
      rw [List.append_assoc, List.singleton_append]
    · rw [List.cons_append]
      rw [newFirst, if_neg hcnd, newFirst, if_neg hcnd, ih seen b]

lemma foldl_addPayloadToken_spec (ps : List (Option String)) :
    ∀ acc : TokenAcc,
      (ps.foldl addPayloadToken acc).gameTokens =
          acc.gameTokens ++ newFirst acc.seenTokens (ps.filterMap id)
        ∧ (ps.foldl addPayloadToken acc).seenTokens =
            acc.seenTokens ++ newFirst acc.seenTokens (ps.filterMap id) := by
  induction ps with
  | nil => intro acc; simp [newFirst]
  | cons p ps ih =>
    intro acc
    cases p with
    | none =>
      rw [List.foldl_cons]
      have hstep : addPayloadToken acc none = acc := rfl
      rw [hstep]
      simpa using ih acc
    | some tok =>
      rw [List.foldl_cons]
      by_cases hcnd : tok ≠ "" ∧ tok ∉ acc.seenTokens
      · have hstep : addPayloadToken acc (some tok) =
            ⟨acc.gameTokens ++ [tok], acc.seenTokens ++ [tok], acc.newCount + 1⟩ := by
          simp only [addPayloadToken]
          rw [if_pos hcnd]
        rw [hstep]
        obtain ⟨h1, h2⟩ := ih ⟨acc.gameTokens ++ [tok], acc.seenTokens ++ [tok], acc.newCount + 1⟩
        rw [h1, h2]
        have hnf : newFirst acc.seenTokens ((some tok :: ps).filterMap id) =
            tok :: newFirst (acc.seenTokens ++ [tok]) (ps.filterMap id) := by
          rw [List.filterMap_cons]
          simp only [id]
          rw [newFirst, if_pos hcnd]
        rw [hnf]
        simp [List.append_assoc]
      · have hstep : addPayloadToken acc (some tok) = acc := by
          show (if tok ≠ "" ∧ tok ∉ acc.seenTokens then
              (⟨acc.gameTokens ++ [tok], acc.seenTokens ++ [tok], acc.newCount + 1⟩ : TokenAcc)
            else acc) = acc
          rw [if_neg hcnd]
        rw [hstep]
        obtain ⟨h1, h2⟩ := ih acc
        rw [h1, h2]
        have hnf : newFirst acc.seenTokens ((some tok :: ps).filterMap id) =
            newFirst acc.seenTokens (ps.filterMap id) := by
          rw [List.filterMap_cons]
          simp only [id]
          rw [newFirst, if_neg hcnd]
        rw [hnf]
        simp

lemma addEntry_spec (e : FeedEntry) (acc : TokenAcc) :
    (addEntry acc e).gameTokens = acc.gameTokens ++ newFirst acc.seenTokens (entryTokens e)
      ∧ (addEntry acc e).seenTokens =
          acc.seenTokens ++ newFirst acc.seenTokens (entryTokens e) := by
  unfold addEntry entryTokens
  by_cases he : e.etype = 1
  · rw [if_pos he, if_pos he]
    cases hp : e.payloads with
    | error msg => simp [newFirst]
    | ok ps => exact foldl_addPayloadToken_spec ps acc
  · rw [if_neg he, if_neg he]
    simp [newFirst]

lemma foldl_addEntry_spec (es : List FeedEntry) :
    ∀ acc : TokenAcc,
      (es.foldl addEntry acc).gameTokens =
          acc.gameTokens ++ newFirst acc.seenTokens ((es.map entryTokens).flatten)
        ∧ (es.foldl addEntry acc).seenTokens =
            acc.seenTokens ++ newFirst acc.seenTokens ((es.map entryTokens).flatten) := by
  induction es with
  | nil => intro acc; simp [newFirst]
  | cons e es ih =>
    intro acc
    rw [List.foldl_cons]
    obtain ⟨h1, h2⟩ := ih (addEntry acc e)
    obtain ⟨g1, g2⟩ := addEntry_spec e acc
    rw [h1, h2, g1, g2, List.map_cons, List.flatten_cons,
      newFirst_append (entryTokens e) acc.seenTokens]
    constructor <;> rw [List.append_assoc]

/-- The page-level first-discovery property: scanning a page appends to
the output exactly the page's candidate tokens that are truthy and not
yet seen, in page order, and records them as seen. -/
lemma extractPage_spec (tokens seen : List String) (page : FeedPage) :
    (extractPage tokens seen page).gameTokens =
        tokens ++ newFirst seen (pageTokens page)
      ∧ (extractPage tokens seen page).seenTokens =
          seen ++ newFirst seen (pageTokens page) := by
  unfold extractPage pageTokens
  exact foldl_addEntry_spec page.entries ⟨tokens, seen, 0⟩

lemma newFirst_nodup_sub (l : List String) :
    ∀ seen : List String, (newFirst seen l).Nodup ∧ ∀ x ∈ newFirst seen l, x ∉ seen := by
  induction l with
  | nil => intro seen; simp [newFirst]
  | cons t ts ih =>
    intro seen
    by_cases hcnd : t ≠ "" ∧ t ∉ seen
    · rw [newFirst, if_pos hcnd]
      obtain ⟨hnd, hsub⟩ := ih (seen ++ [t])
      have htn : t ∉ newFirst (seen ++ [t]) ts := by
        intro hmem
        exact (hsub t hmem) (by simp)
      refine ⟨List.nodup_cons.mpr ⟨htn, hnd⟩, ?_⟩
      intro x hx
      rcases List.mem_cons.mp hx with hxt | hxm
      · subst hxt; exact hcnd.2
      · intro hxs
        exact (hsub x hxm) (by simp [hxs])
    · rw [newFirst, if_neg hcnd]
      exact ih seen

/-- The list invariant of the pagination loop: output and seen set hold
the same tokens in the same first-discovery order, without duplicates. -/
def LoopInv (s : LoopState) : Prop :=
  s.gameTokens = s.seenTokens ∧ s.seenTokens.Nodup

lemma extractPage_inv (tokens seen : List String) (page : FeedPage)
    (h1 : tokens = seen) (h2 : seen.Nodup) :
    (extractPage tokens seen page).gameTokens = (extractPage tokens seen page).seenTokens
      ∧ (extractPage tokens seen page).seenTokens.Nodup := by
  obtain ⟨g1, g2⟩ := extractPage_spec tokens seen page
  obtain ⟨hnd, hsub⟩ := newFirst_nodup_sub (pageTokens page) seen
  refine ⟨by rw [g1, g2, h1], ?_⟩
  rw [g2]
  rw [List.nodup_append]
  exact ⟨h2, hnd, fun x hx hx2 => (hsub x hx2) hx⟩

lemma stepPage_more_inv (feed : Option String → Except String FeedPage)
    (mp : Option ℕ) (s s1 : LoopState) (h : stepPage feed mp s = .more s1)
    (hinv : LoopInv s) : LoopInv s1 := by
  unfold stepPage at h
  by_cases hg : ltMax s.pageCount mp = true
  · rw [if_pos hg] at h
    cases hf : feed s.cursor with
    | error e =>
      rw [hf] at h
      cases h
      exact hinv
    | ok page =>
      rw [hf] at h
      simp only at h
      obtain ⟨hi1, hi2⟩ := extractPage_inv s.gameTokens s.seenTokens page hinv.1 hinv.2
      by_cases hn : (extractPage s.gameTokens s.seenTokens page).newCount = 0
      · rw [if_pos hn] at h
        by_cases h3 : 3 ≤ s.emptyPages + 1
        · rw [if_pos h3] at h
          cases h
        · rw [if_neg h3] at h
          unfold afterCursor at h
          cases hpt : page.paginationToken with
          | none => rw [hpt] at h; cases h
          | some t =>
            rw [hpt] at h
            cases h
            exact ⟨hi1, hi2⟩
      · rw [if_neg hn] at h
        unfold afterCursor at h
        cases hpt : page.paginationToken with
        | none => rw [hpt] at h; cases h
        | some t =>
          rw [hpt] at h
          cases h
          exact ⟨hi1, hi2⟩
  · rw [if_neg hg] at h
    cases h

lemma stepPage_stop_inv (feed : Option String → Except String FeedPage)
    (mp : Option ℕ) (s s1 : LoopState) (r : ExitReason)
    (h : stepPage feed mp s = .stop s1 r) (hinv : LoopInv s) : LoopInv s1 := by
  unfold stepPage at h
  by_cases hg : ltMax s.pageCount mp = true
  · rw [if_pos hg] at h
    cases hf : feed s.cursor with
    | error e =>
      rw [hf] at h
      cases h
    | ok page =>
      rw [hf] at h
      simp only at h
      obtain ⟨hi1, hi2⟩ := extractPage_inv s.gameTokens s.seenTokens page hinv.1 hinv.2
      by_cases hn : (extractPage s.gameTokens s.seenTokens page).newCount = 0
      · rw [if_pos hn] at h
        by_cases h3 : 3 ≤ s.emptyPages + 1
        · rw [if_pos h3] at h
          cases h
          exact ⟨hi1, hi2⟩
        · rw [if_neg h3] at h
          unfold afterCursor at h
          cases hpt : page.paginationToken with
          | none =>
            rw [hpt] at h
            cases h
            exact ⟨hi1, hi2⟩
          | some t => rw [hpt] at h; cases h
      · rw [if_neg hn] at h
        unfold afterCursor at h
        cases hpt : page.paginationToken with
        | none =>
          rw [hpt] at h
          cases h
          exact ⟨hi1, hi2⟩
        | some t => rw [hpt] at h; cases h
  · rw [if_neg hg] at h
    cases h
    exact hinv

lemma runLoop_inv (feed : Option String → Except String FeedPage) (mp : Option ℕ) :
    ∀ (fuel : ℕ) (s sF : LoopState) (r : ExitReason),
      runLoop feed mp fuel s = some (sF, r) → LoopInv s → LoopInv sF := by
  intro fuel
  induction fuel with
  | zero => intro s sF r h _; simp [runLoop] at h
  | succ n ih =>
    intro s sF r h hinv
    rw [runLoop] at h
    cases hs : stepPage feed mp s with
    | stop s2 r2 =>
      rw [hs] at h
      simp only [Option.some_inj, Prod.mk.injEq] at h
      obtain ⟨h1, h2⟩ := h
      rw [← h1]
      exact stepPage_stop_inv feed mp s s2 r2 hs hinv
    | more s1 =>
      rw [hs] at h
      exact ih s1 sF r h (stepPage_more_inv feed mp s s1 hs hinv)

/-- A type-1 feed entry whose payload parses to the given optional
gameToken fields. -/
def entry1 (toks : List (Option String)) : FeedEntry := ⟨1, .ok toks⟩

/-- A two-page feed with an overlapping identifier: page 1 yields tokens
"a" and "b" and a cursor, page 2 yields "a" again and no cursor. -/
def ovFeed : Option String → Except String FeedPage
  | none => .ok ⟨[entry1 [some "a", some "b"]], some "c1"⟩
  | some _ => .ok ⟨[entry1 [some "a"]], none⟩

/-- All-ok sync environment over the deduplicated overlap tokens. -/
def envOv : SyncEnv where
  tokens := .ok ["a", "b"]
  details := fun t => .ok (detailsFor t)
  saveFail := fun _ => none
  userUpdateFail := none
  now := 0
  elapsed := 3

lemma envOv_consistent : EnvConsistent envOv := by
  intro t d h
  simp [envOv, detailsFor] at h
  rw [← h]

/-- Claim C5: the identifier list produced by pagination holds each
distinct identifier at most once, in first-discovery order — a page scan
appends exactly the page's not-yet-seen truthy tokens in page order, an
identifier seen on several pages enters the list only the first time
(concretely, the overlap feed yields exactly the list consisting of "a"
and then "b"), and a token list produced by the loop leads to exactly one
persisted parent per successfully processed identifier. -/
theorem getAllGameTokens_dedup_first_discovery :
    (∀ (feed : Option String → Except String FeedPage) (mp : Option ℕ) (fuel : ℕ)
        (sF : LoopState) (r : ExitReason),
        runLoop feed mp fuel initLoopState = some (sF, r) → sF.gameTokens.Nodup)
      ∧ (∀ (tokens seen : List String) (page : FeedPage),
          (extractPage tokens seen page).gameTokens =
            tokens ++ newFirst seen (pageTokens page))
      ∧ getAllGameTokens ovFeed (some 5) 10 = some ["a", "b"]
      ∧ (∀ (feed : Option String → Except String FeedPage) (mp : Option ℕ) (fuel : ℕ)
          (sF : LoopState) (r : ExitReason) (env : SyncEnv) (u : ℕ) (st : Store),
          runLoop feed mp fuel initLoopState = some (sF, r) →
          EnvConsistent env →
          env.tokens = .ok sF.gameTokens →
          (∀ t ∈ sF.gameTokens, hasGame st t = false) →
          ∀ t ∈ sF.gameTokens, okTok env t = true →
            gameCount (syncAllData env u st).2 t = 1) := by
  have hnodup : ∀ (feed : Option String → Except String FeedPage) (mp : Option ℕ)
      (fuel : ℕ) (sF : LoopState) (r : ExitReason),
      runLoop feed mp fuel initLoopState = some (sF, r) → sF.gameTokens.Nodup := by
    intro feed mp fuel sF r h
    have hinv := runLoop_inv feed mp fuel initLoopState sF r h ⟨rfl, List.nodup_nil⟩
    rw [hinv.1]
    exact hinv.2
  refine ⟨hnodup, ?_, by decide, ?_⟩
  · intro tokens seen page
    exact (extractPage_spec tokens seen page).1
  · intro feed mp fuel sF r env u st hrun hc htk habs t ht hok
    rw [syncAllData_store_eq env u st sF.gameTokens htk]
    exact ((runToks_spec env u hc sF.gameTokens initResult st
      (hnodup feed mp fuel sF r hrun) habs).2.2.2.2.1 t ht hok).2

/-- Closed witness for C5: the overlap feed's token "a" appears on both
pages, is listed once, and after the sync run exactly one parent record
with that token is persisted. -/
theorem getAllGameTokens_dedup_first_discovery_witness :
    gameCount (syncAllData envOv 1 emptyStore).2 "a" = 1
      ∧ gameCount (syncAllData envOv 1 emptyStore).2 "b" = 1 := by
  have h := getAllGameTokens_dedup_first_discovery.2.2.2 ovFeed (some 5) 10
    ⟨["a", "b"], ["a", "b"], some "c1", 2, 1⟩ .endOfFeed envOv 1 emptyStore
    (by decide) envOv_consistent rfl (by decide)
  exact ⟨h "a" (by decide) (by decide), h "b" (by decide) (by decide)⟩

/-! ## Pagination: termination conditions -/

lemma stepPage_more_facts (feed : Option String → Except String FeedPage) (mp : Option ℕ)
    (s s1 : LoopState) (h : stepPage feed mp s = .more s1) :
    s1.pageCount = s.pageCount + 1 ∧ ltMax s.pageCount mp = true := by
  unfold stepPage at h
  by_cases hg : ltMax s.pageCount mp = true
  · rw [if_pos hg] at h
    cases hf : feed s.cursor with
    | error e =>
      rw [hf] at h
      cases h
      exact ⟨rfl, hg⟩
    | ok page =>
      rw [hf] at h
      simp only at h
      by_cases hn : (extractPage s.gameTokens s.seenTokens page).newCount = 0
      · rw [if_pos hn] at h
        by_cases h3 : 3 ≤ s.emptyPages + 1
        · rw [if_pos h3] at h
          cases h
        · rw [if_neg h3] at h
          unfold afterCursor at h
          cases hpt : page.paginationToken with
          | none => rw [hpt] at h; cases h
          | some t =>
            rw [hpt] at h
            cases h
            exact ⟨rfl, hg⟩
      · rw [if_neg hn] at h
        unfold afterCursor at h
        cases hpt : page.paginationToken with
        | none => rw [hpt] at h; cases h
        | some t =>
          rw [hpt] at h
          cases h
          exact ⟨rfl, hg⟩
  · rw [if_neg hg] at h
    cases h

lemma stepPage_stop_char (feed : Option String → Except String FeedPage) (mp : Option ℕ)
    (s s1 : LoopState) (r : ExitReason) (h : stepPage feed mp s = .stop s1 r) :
    (r = .maxPagesReached → s1 = s ∧ ltMax s.pageCount mp = false)
      ∧ (r = .emptyStreak → 3 ≤ s1.emptyPages)
      ∧ (r = .endOfFeed → s1.cursor = s.cursor ∧
          ∃ page, feed s.cursor = .ok page ∧ page.paginationToken = none) := by
  unfold stepPage at h
  by_cases hg : ltMax s.pageCount mp = true
  · rw [if_pos hg] at h
    cases hf : feed s.cursor with
    | error e =>
      rw [hf] at h
      cases h
    | ok page =>
      rw [hf] at h
      simp only at h
      by_cases hn : (extractPage s.gameTokens s.seenTokens page).newCount = 0
      · rw [if_pos hn] at h
        by_cases h3 : 3 ≤ s.emptyPages + 1
        · rw [if_pos h3] at h
          cases h
          refine ⟨fun hr => ?_, fun _ => h3, fun hr => ?_⟩
          · cases hr
          · cases hr
        · rw [if_neg h3] at h
          unfold afterCursor at h
          cases hpt : page.paginationToken with
          | none =>
            rw [hpt] at h
            cases h
            refine ⟨fun hr => ?_, fun hr => ?_, fun _ => ⟨rfl, page, rfl, hpt⟩⟩
            · cases hr
            · cases hr
          | some t => rw [hpt] at h; cases h
      · rw [if_neg hn] at h
        unfold afterCursor at h
        cases hpt : page.paginationToken with
        | none =>
          rw [hpt] at h
          cases h
          refine ⟨fun hr => ?_, fun hr => ?_, fun _ => ⟨rfl, page, rfl, hpt⟩⟩
          · cases hr
          · cases hr
        | some t => rw [hpt] at h; cases h
  · rw [if_neg hg] at h
    cases h
    refine ⟨fun _ => ⟨rfl, by simpa using hg⟩, fun hr => ?_, fun hr => ?_⟩
    · cases hr
    · cases hr

lemma runLoop_stop_char (feed : Option String → Except String FeedPage) (mp : Option ℕ) :
    ∀ (fuel : ℕ) (s sF : LoopState) (r : ExitReason),
      runLoop feed mp fuel s = some (sF, r) →
      (r = .maxPagesReached → ltMax sF.pageCount mp = false)
        ∧ (r = .emptyStreak → 3 ≤ sF.emptyPages)
        ∧ (r = .endOfFeed →
            ∃ page, feed sF.cursor = .ok page ∧ page.paginationToken = none) := by
  intro fuel
  induction fuel with
  | zero => intro s sF r h; simp [runLoop] at h
  | succ n ih =>
    intro s sF r h
    rw [runLoop] at h
    cases hs : stepPage feed mp s with
    | stop s2 r2 =>
      rw [hs] at h
      simp only [Option.some_inj, Prod.mk.injEq] at h
      obtain ⟨h1, h2⟩ := h
      obtain ⟨c1, c2, c3⟩ := stepPage_stop_char feed mp s s2 r2 hs
      refine ⟨fun hr => ?_, fun hr => ?_, fun hr => ?_⟩
      · obtain ⟨hs2, hlt⟩ := c1 (h2.trans hr)
        rw [← h1, hs2]
        exact hlt
      · rw [← h1]
        exact c2 (h2.trans hr)
      · obtain ⟨hcur, page, hp1, hp2⟩ := c3 (h2.trans hr)
        rw [← h1, hcur]
        exact ⟨page, hp1, hp2⟩
    | more s1 =>
      rw [hs] at h
      exact ih s1 sF r h

lemma runLoop_isSome_of_cap (feed : Option String → Except String FeedPage) (m : ℕ) :
    ∀ (fuel : ℕ) (s : LoopState), m - s.pageCount < fuel →
      (runLoop feed (some m) fuel s).isSome = true := by
  intro fuel
  induction fuel with
  | zero => intro s h; omega
  | succ n ih =>
    intro s h
    rw [runLoop]
    cases hs : stepPage feed (some m) s with
    | stop s2 r2 => rfl
    | more s1 =>
      obtain ⟨hpc, hlt⟩ := stepPage_more_facts feed (some m) s s1 hs
      have hlt2 : s.pageCount < m := by simpa [ltMax] using hlt
      exact ih s1 (by omega)

/-- An unbounded feed: three pages of fresh tokens, then pages that carry
only the already-seen token "t1" and always present a next cursor. -/
def infFeed : Option String → Except String FeedPage
  | none => .ok ⟨[entry1 [some "t1"]], some "c1"⟩
  | some "c1" => .ok ⟨[entry1 [some "t2"]], some "c2"⟩
  | some "c2" => .ok ⟨[entry1 [some "t3"]], some "c3"⟩
  | some _ => .ok ⟨[entry1 [some "t1"]], some "cLoop"⟩

/-- Claim C6: the pagination loop terminates exactly under the three
conditions. (1) With a finite maxPages, the loop always exits within
maxPages iterations (each iteration, successful or caught-failed, counts
one page). (2) Whenever the loop exits, the exit reason's condition holds
at the exit state: maxPagesReached means the guard pageCount < maxPages
failed, emptyStreak means the consecutive-no-new-token counter reached 3,
endOfFeed means the fetched page carried no pagination token. (3) On the
unbounded feed whose pages beyond the third carry only already-seen
identifiers and always a cursor, the loop stops by the empty-streak
heuristic after page 6 with the three discovered tokens. -/
theorem getAllGameTokens_termination :
    (∀ (feed : Option String → Except String FeedPage) (m fuel : ℕ) (s : LoopState),
        m - s.pageCount < fuel → (runLoop feed (some m) fuel s).isSome = true)
      ∧ (∀ (feed : Option String → Except String FeedPage) (mp : Option ℕ)
          (fuel : ℕ) (s sF : LoopState) (r : ExitReason),
          runLoop feed mp fuel s = some (sF, r) →
          (r = .maxPagesReached → ltMax sF.pageCount mp = false)
            ∧ (r = .emptyStreak → 3 ≤ sF.emptyPages)
            ∧ (r = .endOfFeed →
                ∃ page, feed sF.cursor = .ok page ∧ page.paginationToken = none))
      ∧ runLoop infFeed none 30 initLoopState =
          some (⟨["t1", "t2", "t3"], ["t1", "t2", "t3"], some "cLoop", 6, 3⟩, .emptyStreak)
      ∧ getAllGameTokens infFeed none 30 = some ["t1", "t2", "t3"] := by
  refine ⟨?_, ?_, by decide, by decide⟩
  · intro feed m fuel s h
    exact runLoop_isSome_of_cap feed m fuel s h
  · intro feed mp fuel s sF r h
    exact runLoop_stop_char feed mp fuel s sF r h

/-- Closed witness for C6: a feed whose every fetch fails still terminates
under the cap, within maxPages iterations. -/
theorem getAllGameTokens_termination_witness :
    (runLoop (fun _ => .error "ECONNREFUSED") (some 5) 6 initLoopState).isSome = true :=
  getAllGameTokens_termination.1 (fun _ => .error "ECONNREFUSED") 5 6 initLoopState
    (by decide)

/-! ## Remote client: no retry, no auth distinction -/

def pageOk : FeedPage := ⟨[entry1 [some "g1"]], none⟩

/-- A transport whose first attempt fails transiently and whose later
attempts would succeed. -/
def flakyTransport : Option String → ℕ → Except HttpErr FeedPage :=
  fun _ n => if n = 0 then .error ⟨none, "timeout of 30000ms exceeded"⟩ else .ok pageOk

/-- A transport that always fails with HTTP 401. -/
def authTransport : Option String → ℕ → Except HttpErr FeedPage :=
  fun _ _ => .error ⟨some 401, "Request failed with status code 401"⟩

/-- Counterexample for C7 at explicit transports: on a transient failure
whose retry would succeed, the source getFeed surfaces a wrapped error
immediately while the spec's retrying client succeeds; and on a 401 the
source surfaces the same generic wrapped error, not an AuthError. -/
theorem getFeed_no_retry_counterexample :
    getFeed flakyTransport none =
        .error "Failed to fetch GeoGuessr feed: timeout of 30000ms exceeded"
      ∧ getFeedSpec flakyTransport none = .ok pageOk
      ∧ getFeed flakyTransport none ≠ getFeedSpec flakyTransport none
      ∧ getFeed authTransport none =
          .error "Failed to fetch GeoGuessr feed: Request failed with status code 401"
      ∧ getFeedSpec authTransport none = .error "AuthError" := by
  refine ⟨rfl, rfl, ?_, rfl, rfl⟩
  intro h
  rw [show getFeed flakyTransport none =
      .error "Failed to fetch GeoGuessr feed: timeout of 30000ms exceeded" from rfl,
    show getFeedSpec flakyTransport none = .ok pageOk from rfl] at h
  cases h

/-- Claim C7 amended: both request types make exactly one HTTP attempt;
any failure — transient or auth alike — is surfaced immediately as a
generic wrapped error, with no retry and no AuthError distinction. The
single-attempt character is expressed by the result depending only on
attempt 0 of the transport. -/
theorem getFeed_single_attempt (tF tF2 : Option String → ℕ → Except HttpErr FeedPage)
    (tD : String → ℕ → Except HttpErr GameDetails) (cursor : Option String) (tok : String) :
    (∀ e, tF cursor 0 = .error e →
        getFeed tF cursor = .error ("Failed to fetch GeoGuessr feed: " ++ e.msg))
      ∧ (tF cursor 0 = tF2 cursor 0 → getFeed tF cursor = getFeed tF2 cursor)
      ∧ (∀ e, tD tok 0 = .error e →
          getGameDetails tD tok =
            .error ("Failed to fetch game details for " ++ tok ++ ": " ++ e.msg)) := by
  refine ⟨?_, ?_, ?_⟩
  · intro e he
    unfold getFeed
    rw [he]
  · intro h
    unfold getFeed
    rw [h]
  · intro e he
    unfold getGameDetails
    rw [he]

/-- Closed witness for the amended C7 at the flaky transport. -/
theorem getFeed_single_attempt_witness :
    getFeed flakyTransport none =
      .error "Failed to fetch GeoGuessr feed: timeout of 30000ms exceeded" :=
  (getFeed_single_attempt flakyTransport flakyTransport (fun _ _ => .ok seDetails)
    none "g1").1 ⟨none, "timeout of 30000ms exceeded"⟩ rfl

/-! ## A run whose every page fetch fails -/

/-- A feed whose every fetch fails (the wrapped message the client would
produce). -/
def downFeed : Option String → Except String FeedPage :=
  fun _ => .error "Failed to fetch GeoGuessr feed: connect ECONNREFUSED"

/-- Sync environment seen by syncAllData when the paginator returned an
empty token list. -/
def envNoTokens : SyncEnv where
  tokens := .ok []
  details := fun _ => .error "unreachable"
  saveFail := fun _ => none
  userUpdateFail := none
  now := 0
  elapsed := 8

/-- Counterexample for C8 at an explicit run: with every page fetch
failing, the paginator returns an empty token list after maxPages caught
failures, and the sync run completes reporting success = true with no
errors — it does not abort and no FeedUnavailableError exists. -/
theorem feed_unavailable_counterexample :
    getAllGameTokens downFeed (some 5) 10 = some []
      ∧ (syncAllData envNoTokens 1 emptyStore).1.success = true
      ∧ (syncAllData envNoTokens 1 emptyStore).1.errors = []
      ∧ (syncAllData envNoTokens 1 emptyStore).2 = emptyStore := by
  refine ⟨by decide, by decide, by decide, by decide⟩

lemma runLoop_all_fail (feed : Option String → Except String FeedPage)
    (hfail : ∀ c, ∃ e, feed c = .error e) (m : ℕ) :
    ∀ (fuel : ℕ) (s : LoopState), s.pageCount ≤ m → m - s.pageCount < fuel →
      runLoop feed (some m) fuel s = some ({ s with pageCount := m }, .maxPagesReached) := by
  intro fuel
  induction fuel with
  | zero => intro s h1 h2; omega
  | succ n ih =>
    intro s h1 h2
    rw [runLoop]
    by_cases hlt : s.pageCount < m
    · obtain ⟨e, he⟩ := hfail s.cursor
      have hstep : stepPage feed (some m) s = .more { s with pageCount := s.pageCount + 1 } := by
        unfold stepPage
        rw [if_pos (by simpa [ltMax] using hlt), he]
      rw [hstep]
      have := ih { s with pageCount := s.pageCount + 1 } (by simpa using hlt) (by simp; omega)
      simpa using this
    · have hm : s.pageCount = m := by omega
      have hstep : stepPage feed (some m) s = .stop s .maxPagesReached := by
        unfold stepPage
        rw [if_neg (by simp [ltMax]; omega)]
      rw [hstep]
      have hs : ({ s with pageCount := m } : LoopState) = s := by
        rw [← hm]
      rw [hs]

/-- Claim C8 amended: a run in which no page fetch ever succeeds does not
abort — no FeedUnavailableError exists in the code. The paginator counts
each caught page failure and, once maxPages is reached, returns the empty
token list from its unchanged initial state; syncAllData on an empty
token list then completes immediately with success = true, no errors, and
an untouched store. -/
theorem feed_unavailable_run_completes (feed : Option String → Except String FeedPage)
    (hfail : ∀ c, ∃ e, feed c = .error e) (m fuel : ℕ) (hfuel : m < fuel)
    (env : SyncEnv) (u : ℕ) (st : Store) (htk : env.tokens = .ok []) :
    getAllGameTokens feed (some m) fuel = some []
      ∧ (syncAllData env u st).1.success = true
      ∧ (syncAllData env u st).1.errors = []
      ∧ (syncAllData env u st).2 = st := by
  have hloop := runLoop_all_fail feed hfail m fuel initLoopState (by simp [initLoopState])
    (by simpa [initLoopState] using hfuel)
  constructor
  · unfold getAllGameTokens
    rw [hloop]
    rfl
  · unfold syncAllData
    rw [htk]
    simp [initResult]

/-- Closed witness for the amended C8 at the concrete failing feed. -/
theorem feed_unavailable_run_completes_witness :
    getAllGameTokens downFeed (some 5) 10 = some []
      ∧ (syncAllData envNoTokens 1 emptyStore).1.success = true :=
  ⟨(feed_unavailable_run_completes downFeed
      (fun c => ⟨"Failed to fetch GeoGuessr feed: connect ECONNREFUSED", rfl⟩) 5 10
      (by decide) envNoTokens 1 emptyStore rfl).1,
    (feed_unavailable_run_completes downFeed
      (fun c => ⟨"Failed to fetch GeoGuessr feed: connect ECONNREFUSED", rfl⟩) 5 10
      (by decide) envNoTokens 1 emptyStore rfl).2.1⟩

end GeoStats
